import Mathlib

/-!
Verification development for the vritti invoice-extraction engine.

The Python sources under `src/` are shallowly embedded below:

* text is modelled as `Str := List Char`; Python string primitives
  (`upper`, `in`, `replace`, `split`, `strip`, `rfind`, `title`, ...)
  are re-implemented as executable functions on `Str`;
* Python `float` values are modelled as exact fractions (`PyNum`), since
  every numeric step of the pipeline (decimal parsing, comparisons,
  fixed-point formatting) is exact on the decimal values it manipulates;
  binary floating-point rounding is not modelled;
* Python `re` patterns are modelled by an explicit regular-expression
  syntax tree (`RE`) together with a backtracking matcher whose
  result-enumeration order mirrors CPython's preference order
  (left alternative first, greedy repetition longest-first, lazy
  repetition shortest-first), and `findall`/`search`/`sub` scanners;
* `dict` results are modelled as flat structures; a key that a failure
  branch omits is modelled by the neutral value (`[]` / `0`);
* non-ASCII case conversion (`str.upper` on accented letters) is not
  modelled: `pyUpper` only maps ASCII; all concrete inputs used in
  witnesses are ASCII (plus currency symbols, which have no case).

Embedded components: `currency_config.py`, `currency_detector.py`,
`formatters.py`, `amount_extractor.py`, `business_indicators.py`,
`vendor_extractor.py`, `hybrid_service.py` (orchestration logic with the
two backends abstracted as request-scoped result values).
-/

set_option maxRecDepth 100000

namespace Vritti

/-- Python strings are modelled as plain character lists. -/
abbrev Str := List Char

/-- Shorthand turning a Lean string literal into the `Str` model. -/
def S (s : String) : Str := s.data

/-- ASCII uppercase conversion, modelling `str.upper` on ASCII text. -/
def pyUpper (s : Str) : Str := s.map Char.toUpper

/-- ASCII lowercase conversion, modelling `str.lower` on ASCII text. -/
def pyLower (s : Str) : Str := s.map Char.toLower

/-- Python `\d` / `str.isdigit` on ASCII. -/
def isDigitC (c : Char) : Bool := c.isDigit

/-- Python `\s` (whitespace class). -/
def isSpaceC (c : Char) : Bool :=
  c = ' ' || c = '\t' || c = '\n' || c = '\x0d' || c = '\x0b' || c = '\x0c'

/-- Python `\w` (word character) restricted to ASCII. -/
def isWordC (c : Char) : Bool := c.isAlpha || c.isDigit || c = '_'

/-- Python `str.isalpha` on ASCII. -/
def isAlphaC (c : Char) : Bool := c.isAlpha

/-- Python `str.isupper` for a single ASCII character. -/
def isUpperC (c : Char) : Bool := c.isUpper

/-- Python `str.islower` for a single ASCII character. -/
def isLowerC (c : Char) : Bool := c.isLower

/-- Case-insensitive character comparison (for `re.IGNORECASE`, ASCII). -/
def ciEq (a b : Char) : Bool := a.toUpper == b.toUpper

/-- Does `s` start with `p` (exact characters)? -/
def startsWithStr : Str → Str → Bool
  | _, [] => true
  | [], _ :: _ => false
  | c :: cs, d :: ds => c == d && startsWithStr cs ds

/-- Python `needle in hay` substring containment. -/
def containsSub (hay needle : Str) : Bool :=
  startsWithStr hay needle ||
    match hay with
    | [] => false
    | _ :: t => containsSub t needle

/-- One step of Python `str.replace` with remaining fuel; replaces every
non-overlapping occurrence left to right. -/
def replaceSubGo : Nat → Str → Str → Str → Str
  | 0, s, _, _ => s
  | _ + 1, [], _, _ => []
  | f + 1, c :: cs, old, new =>
    if old ≠ [] ∧ startsWithStr (c :: cs) old then
      new ++ replaceSubGo f (List.drop (old.length - 1) cs) old new
    else
      c :: replaceSubGo f cs old new

/-- Python `s.replace(old, new)` (all occurrences, left to right). -/
def replaceSub (s old new : Str) : Str := replaceSubGo s.length s old new

/-- Python `s.split(sep)` for a single-character separator; keeps empty
pieces, exactly like `str.split` with an explicit separator. -/
def splitOnChar (sep : Char) : Str → List Str
  | [] => [[]]
  | c :: cs =>
    if c == sep then [] :: splitOnChar sep cs
    else
      match splitOnChar sep cs with
      | [] => [[c]]
      | h :: t => (c :: h) :: t

/-- Python `s.rfind(c)`: index of the last occurrence, `-1` if absent. -/
def rfindAux (c : Char) : Str → Nat → Int
  | [], _ => -1
  | d :: ds, i =>
    let r := rfindAux c ds (i + 1)
    if r ≥ 0 then r else if d == c then (i : Int) else -1

/-- Python `s.rfind(c)` from the start of the string. -/
def rfindC (c : Char) (s : Str) : Int := rfindAux c s 0

/-- Python `s.strip()` (whitespace from both ends). -/
def pyStrip (s : Str) : Str :=
  ((s.dropWhile isSpaceC).reverse.dropWhile isSpaceC).reverse

/-- Python `s.count(c)` for a single character. -/
def countC (c : Char) (s : Str) : Nat := (s.filter (· == c)).length

/-- Python `s.isdigit()`: non-empty and all digits. -/
def allDigits (s : Str) : Bool := s ≠ [] && s.all isDigitC

/-- Python `s.isupper()`: at least one cased character and no lowercase
cased character (ASCII). -/
def pyIsUpper (s : Str) : Bool :=
  let cased := s.filter isAlphaC
  cased ≠ [] && cased.all isUpperC

/-- Helper for `pyTitle`: the flag records whether the previous character
was alphabetic. -/
def pyTitleGo : Bool → Str → Str
  | _, [] => []
  | prevAlpha, c :: cs =>
    let c' := if isAlphaC c then (if prevAlpha then c.toLower else c.toUpper) else c
    c' :: pyTitleGo (isAlphaC c) cs

/-- Python `s.title()` on ASCII text. -/
def pyTitle (s : Str) : Str := pyTitleGo false s

/-- Python `s.splitlines`-free helper: `s.split('\n')`. -/
def splitLines (s : Str) : List Str := splitOnChar '\n' s

/-- Number of elements of `s` satisfying `p` (Python `sum(1 for c in s if p c)`). -/
def countP (p : Char → Bool) (s : Str) : Nat := (s.filter p).length

/-! ### Exact numeric model of Python floats

Every number flowing through the extraction pipeline is a finite decimal
(parsed from decimal text or written as a decimal literal in the source)
and the operations used on it are comparisons, addition/subtraction,
multiplication, and fixed-point formatting, all of which are exact on
fractions. A value is an unreduced fraction `num / den` with `den > 0`
by construction. -/

structure PyNum where
  num : Int
  den : Nat
deriving Repr, DecidableEq

namespace PyNum

/-- Fraction from an integer. -/
def ofInt (n : Int) : PyNum := ⟨n, 1⟩

/-- Fraction from a natural number. -/
def ofNat (n : Nat) : PyNum := ⟨(n : Int), 1⟩

/-- Semantic less-or-equal by cross multiplication (denominators positive). -/
def qle (a b : PyNum) : Bool := a.num * (b.den : Int) ≤ b.num * (a.den : Int)

/-- Semantic strict less-than. -/
def qlt (a b : PyNum) : Bool := a.num * (b.den : Int) < b.num * (a.den : Int)

/-- Semantic equality of fractions. -/
def qeqv (a b : PyNum) : Bool := a.num * (b.den : Int) == b.num * (a.den : Int)

/-- Product of fractions. -/
def pmul (a b : PyNum) : PyNum := ⟨a.num * b.num, a.den * b.den⟩

/-- Difference of fractions. -/
def psub (a b : PyNum) : PyNum :=
  ⟨a.num * (b.den : Int) - b.num * (a.den : Int), a.den * b.den⟩

/-- Absolute value. -/
def pabs (a : PyNum) : PyNum := ⟨a.num.natAbs, a.den⟩

/-- Python `max` of two fractions (returns the second on ties, as
`max(x, y)` returns `x` when `x >= y`; values equal numerically either
way for our uses). -/
def pmax (a b : PyNum) : PyNum := if qle b a then a else b

/-- Is the fraction an exact integer? (models `v == int(v)`). -/
def isIntVal (a : PyNum) : Bool := a.num % (a.den : Int) == 0

end PyNum

/-- Decimal digits of a natural number (most significant first), with
structural fuel. -/
def natDigitsGo : Nat → Nat → Str
  | 0, _ => []
  | _ + 1, 0 => []
  | f + 1, n => natDigitsGo f (n / 10) ++ [Char.ofNat (48 + n % 10)]

/-- Decimal rendering of a natural number. -/
def natDigits (n : Nat) : Str :=
  if n = 0 then ['0'] else natDigitsGo (n + 1) n

/-- Numeric value of a digit string (assumes digits only). -/
def digitsToNat (s : Str) : Nat :=
  s.foldl (fun acc c => acc * 10 + (c.toNat - 48)) 0

/-- Python `float(s)` restricted to the shapes the pipeline can produce:
an optional integer part, an optional single dot, an optional fractional
part, with at least one digit overall; anything else (commas, several
dots, empty string) raises `ValueError`, modelled as `none`. -/
def pyFloat (s : Str) : Option PyNum :=
  match splitOnChar '.' s with
  | [ip] =>
    if ip ≠ [] ∧ ip.all isDigitC then some (PyNum.ofNat (digitsToNat ip)) else none
  | [ip, fp] =>
    if (ip.all isDigitC) ∧ (fp.all isDigitC) ∧ (ip ≠ [] ∨ fp ≠ []) then
      some ⟨(digitsToNat ip : Int) * (10 ^ fp.length : Nat) + (digitsToNat fp : Int),
            10 ^ fp.length⟩
    else none
  | _ => none

/-- Rounding of a non-negative fraction to the nearest integer, ties to
even, modelling CPython `format(v, '.Nf')` on values that the pipeline
produces (where the decimal value is also the double rounding target). -/
def roundHalfEven (a : Int) (b : Nat) : Int :=
  let q := a / (b : Int)
  let r := a % (b : Int)
  if 2 * r < (b : Int) then q
  else if 2 * r > (b : Int) then q + 1
  else if q % 2 == 0 then q else q + 1

/-- Python `f"{v:.pf}"` for a non-negative fraction. -/
def formatFixed (v : PyNum) (p : Nat) : Str :=
  let scaled := roundHalfEven (v.num * (10 ^ p : Nat)) v.den
  let n := scaled.toNat
  if p = 0 then natDigits n
  else
    let ds := natDigits n
    let ds := if ds.length < p + 1 then List.replicate (p + 1 - ds.length) '0' ++ ds else ds
    ds.take (ds.length - p) ++ ['.'] ++ ds.drop (ds.length - p)

/-! ### Regular-expression model

Patterns from the Python sources are transliterated into this syntax
tree. The matcher enumerates alternatives in CPython's backtracking
order, so the head of the result list is the match Python would return.
Literals are compared case-insensitively (every embedded `findall` /
`search` call in the sources either passes `re.IGNORECASE` or uses a
pattern without cased letters). `bol`/`eol` have `re.MULTILINE`
semantics; the strings they are applied to contain no newline unless the
original pattern also used `re.MULTILINE`. -/

inductive RE where
  | eps
  | lit (s : Str)
  | cls (p : Char → Bool)
  | seq (a b : RE)
  | alt (a b : RE)
  | star (a : RE)
  | starL (a : RE)
  | opt (a : RE)
  | nla (a : RE)
  | nlb (p : Char → Bool)
  | bol
  | eol
  | wb
  | grp (a : RE)

/-- Match a literal (case-insensitive), returning the new previous
character and the remaining input. -/
def litMatch : Str → Option Char → Str → Option (Option Char × Str)
  | [], p, cs => some (p, cs)
  | _ :: _, _, [] => none
  | d :: ds, _, c :: cs => if ciEq c d then litMatch ds (some c) cs else none

/-- Merge two capture slots, preferring the first. The embedded patterns
use at most one capture group outside any repetition, so at most one
slot is ever populated. -/
def mergeCap (a b : Option Str) : Option Str :=
  match a with
  | some x => some x
  | none => b

/-- Word/non-word transition test for `\b`. -/
def isWordOpt : Option Char → Bool
  | some c => isWordC c
  | none => false

/-- Backtracking matcher. Each result is `(previous char, rest, capture)`;
the list is ordered by CPython match preference. `star` is greedy,
`starL` lazy; both require each iteration to consume input (the embedded
pattern bodies always do, and CPython stops empty-progress loops).
Recursion is structural on the fuel, consumed at every node; callers pass
`matchFuel`, which strictly dominates the recursion depth (see there), so
the `0` branch is never reached. -/
def mrun : Nat → RE → Option Char → Str → List (Option Char × Str × Option Str)
  | 0, _, _, _ => []
  | f + 1, re, p, cs =>
    match re with
    | .eps => [(p, cs, none)]
    | .lit s =>
      match litMatch s p cs with
      | some (p', cs') => [(p', cs', none)]
      | none => []
    | .cls q =>
      match cs with
      | [] => []
      | c :: cs' => if q c then [(some c, cs', none)] else []
    | .seq a b =>
      (mrun f a p cs).flatMap fun r =>
        (mrun f b r.1 r.2.1).map fun r2 => (r2.1, r2.2.1, mergeCap r.2.2 r2.2.2)
    | .alt a b => mrun f a p cs ++ mrun f b p cs
    | .opt a => mrun f a p cs ++ [(p, cs, none)]
    | .star a =>
      (((mrun f a p cs).filter fun r => r.2.1.length < cs.length).flatMap fun r =>
        (mrun f (.star a) r.1 r.2.1).map fun r2 =>
          (r2.1, r2.2.1, mergeCap r2.2.2 r.2.2)) ++ [(p, cs, none)]
    | .starL a =>
      (p, cs, none) ::
        (((mrun f a p cs).filter fun r => r.2.1.length < cs.length).flatMap fun r =>
          (mrun f (.starL a) r.1 r.2.1).map fun r2 =>
            (r2.1, r2.2.1, mergeCap r2.2.2 r.2.2))
    | .nla a => if (mrun f a p cs).isEmpty then [(p, cs, none)] else []
    | .nlb q =>
      match p with
      | some c => if q c then [] else [(p, cs, none)]
      | none => [(p, cs, none)]
    | .bol =>
      if p = none ∨ p = some '\n' then [(p, cs, none)] else []
    | .eol =>
      match cs with
      | [] => [(p, cs, none)]
      | c :: _ => if c = '\n' then [(p, cs, none)] else []
    | .wb =>
      if isWordOpt p ≠ isWordOpt (cs.head?) then [(p, cs, none)] else []
    | .grp a =>
      (mrun f a p cs).map fun r =>
        (r.1, r.2.1, some (cs.take (cs.length - r.2.1.length)))

/-- Structural size of a pattern, for the fuel bound. -/
def reSize : RE → Nat
  | .eps => 1
  | .lit _ => 1
  | .cls _ => 1
  | .nlb _ => 1
  | .bol => 1
  | .eol => 1
  | .wb => 1
  | .seq a b => reSize a + reSize b + 1
  | .alt a b => reSize a + reSize b + 1
  | .star a => reSize a + 1
  | .starL a => reSize a + 1
  | .opt a => reSize a + 1
  | .nla a => reSize a + 1
  | .grp a => reSize a + 1

/-- Fuel bound for `mrun`. Recursion depth from a node is at most one plus
the maximum over children at the same input; a repetition recurses on a
strictly shorter input (progress filter), and none of the embedded
patterns nests one repetition inside another, so depth is below
`(reSize + 4) * (length + 4)`. -/
def matchFuel (re : RE) (cs : Str) : Nat := (reSize re + 4) * (cs.length + 4)

/-- CPython's preferred match at the current position, if any. -/
def firstMatch (re : RE) (p : Option Char) (cs : Str) :
    Option (Option Char × Str × Option Str) :=
  (mrun (matchFuel re cs) re p cs).head?

/-- Scanner for `re.findall`: leftmost non-overlapping matches, returning
the capture (these patterns have exactly one group) or the whole match. -/
def findAllGo : Nat → RE → Option Char → Str → List Str
  | 0, _, _, _ => []
  | f + 1, re, p, cs =>
    match firstMatch re p cs with
    | some (p', rest, cap) =>
      if rest.length < cs.length then
        cap.getD (cs.take (cs.length - rest.length)) :: findAllGo f re p' rest
      else
        match cs with
        | [] => []
        | c :: t => findAllGo f re (some c) t
    | none =>
      match cs with
      | [] => []
      | c :: t => findAllGo f re (some c) t

/-- Python `re.findall(pattern, s)`. -/
def pyFindAll (re : RE) (s : Str) : List Str := findAllGo (s.length + 1) re none s

/-- Existence scanner for `re.search`. -/
def searchGo : Nat → RE → Option Char → Str → Bool
  | 0, _, _, _ => false
  | f + 1, re, p, cs =>
    if (mrun (matchFuel re cs) re p cs).isEmpty then
      match cs with
      | [] => false
      | c :: t => searchGo f re (some c) t
    else true

/-- Python `re.search(pattern, s) is not None`. -/
def pySearch (re : RE) (s : Str) : Bool := searchGo (s.length + 1) re none s

/-- Python `re.match(pattern, s) is not None` (anchored at the start). -/
def pyMatchAt (re : RE) (s : Str) : Bool := !(mrun (matchFuel re s) re none s).isEmpty

/-- Scanner for `re.sub(pattern, repl, s)` with a plain replacement. -/
def reSubGo : Nat → RE → Str → Option Char → Str → Str
  | 0, _, _, _, cs => cs
  | f + 1, re, repl, p, cs =>
    match firstMatch re p cs with
    | some (p', rest, _) =>
      if rest.length < cs.length then repl ++ reSubGo f re repl p' rest
      else
        match cs with
        | [] => []
        | c :: t => c :: reSubGo f re repl (some c) t
    | none =>
      match cs with
      | [] => []
      | c :: t => c :: reSubGo f re repl (some c) t

/-- Python `re.sub(pattern, repl, s)`. -/
def pySub (re : RE) (repl : Str) (s : Str) : Str :=
  reSubGo (s.length + 1) re repl none s

/-- Exactly `n` copies (the `{n}` quantifier). -/
def repExact (a : RE) : Nat → RE
  | 0 => .eps
  | n + 1 => .seq a (repExact a n)

/-- Up to `n` copies, greedy (suffix of the `{m,n}` quantifier). -/
def repUpTo (a : RE) : Nat → RE
  | 0 => .eps
  | n + 1 => .opt (.seq a (repUpTo a n))

/-- The `{m,n}` quantifier (greedy). -/
def repRange (a : RE) (m n : Nat) : RE := .seq (repExact a m) (repUpTo a (n - m))

/-- The `{m,}` quantifier (greedy). -/
def repAtLeast (a : RE) (m : Nat) : RE := .seq (repExact a m) (.star a)

/-- The `+` quantifier (greedy). -/
def rePlus (a : RE) : RE := .seq a (.star a)

/-- The `+?` quantifier (lazy). -/
def rePlusL (a : RE) : RE := .seq a (.starL a)

/-- `\d` -/
def dC : RE := .cls isDigitC

/-- `\s` -/
def sC : RE := .cls isSpaceC

/-- `.` without `re.DOTALL`. -/
def dotC : RE := .cls (fun c => c != '\n')

/-! ### `currency_config.py` -/

structure CurrInfo where
  symbol : Str
  code : Str
  cname : Str
  decimalPlaces : Nat
deriving Repr, DecidableEq

/-- Association-list lookup (Python `dict.get`), insertion order kept. -/
def lookupStr {α : Type} (l : List (Str × α)) (k : Str) : Option α :=
  (l.find? (fun p => p.1 == k)).map (·.2)

/-- `CURRENCY_CONFIG`, in source insertion order. -/
def CURRENCY_CONFIG : List (Str × CurrInfo) :=
  [ (S "USD", ⟨S "$", S "USD", S "US Dollar", 2⟩),
    (S "EUR", ⟨S "€", S "EUR", S "Euro", 2⟩),
    (S "GBP", ⟨S "£", S "GBP", S "British Pound", 2⟩),
    (S "CAD", ⟨S "C$", S "CAD", S "Canadian Dollar", 2⟩),
    (S "MXN", ⟨S "MX$", S "MXN", S "Mexican Peso", 2⟩),
    (S "INR", ⟨S "₹", S "INR", S "Indian Rupee", 2⟩),
    (S "AED", ⟨S "د.إ", S "AED", S "UAE Dirham", 2⟩),
    (S "SAR", ⟨S "﷼", S "SAR", S "Saudi Riyal", 2⟩),
    (S "JPY", ⟨S "¥", S "JPY", S "Japanese Yen", 0⟩),
    (S "CNY", ⟨S "¥", S "CNY", S "Chinese Yuan", 2⟩),
    (S "KRW", ⟨S "₩", S "KRW", S "South Korean Won", 0⟩),
    (S "AUD", ⟨S "A$", S "AUD", S "Australian Dollar", 2⟩),
    (S "CHF", ⟨S "CHF", S "CHF", S "Swiss Franc", 2⟩),
    (S "SEK", ⟨S "kr", S "SEK", S "Swedish Krona", 2⟩),
    (S "NOK", ⟨S "kr", S "NOK", S "Norwegian Krone", 2⟩),
    (S "DKK", ⟨S "kr", S "DKK", S "Danish Krone", 2⟩),
    (S "RUB", ⟨S "₽", S "RUB", S "Russian Ruble", 2⟩),
    (S "BRL", ⟨S "R$", S "BRL", S "Brazilian Real", 2⟩),
    (S "ZAR", ⟨S "R", S "ZAR", S "South African Rand", 2⟩),
    (S "SGD", ⟨S "S$", S "SGD", S "Singapore Dollar", 2⟩),
    (S "HKD", ⟨S "HK$", S "HKD", S "Hong Kong Dollar", 2⟩),
    (S "THB", ⟨S "฿", S "THB", S "Thai Baht", 2⟩),
    (S "MYR", ⟨S "RM", S "MYR", S "Malaysian Ringgit", 2⟩),
    (S "IDR", ⟨S "Rp", S "IDR", S "Indonesian Rupiah", 0⟩),
    (S "PHP", ⟨S "₱", S "PHP", S "Philippine Peso", 2⟩),
    (S "VND", ⟨S "₫", S "VND", S "Vietnamese Dong", 0⟩),
    (S "TRY", ⟨S "₺", S "TRY", S "Turkish Lira", 2⟩),
    (S "ILS", ⟨S "₪", S "ILS", S "Israeli Shekel", 2⟩),
    (S "EGP", ⟨S "£", S "EGP", S "Egyptian Pound", 2⟩),
    (S "QAR", ⟨S "﷼", S "QAR", S "Qatari Riyal", 2⟩),
    (S "KWD", ⟨S "د.ك", S "KWD", S "Kuwaiti Dinar", 3⟩),
    (S "BHD", ⟨S ".د.ب", S "BHD", S "Bahraini Dinar", 3⟩),
    (S "OMR", ⟨S "﷼", S "OMR", S "Omani Rial", 3⟩) ]

/-- `CURRENCY_RANGES` (min, max), fractional bounds kept exact. -/
def CURRENCY_RANGES : List (Str × (PyNum × PyNum)) :=
  [ (S "USD", (⟨1, 1⟩, ⟨100000, 1⟩)),
    (S "EUR", (⟨1, 1⟩, ⟨100000, 1⟩)),
    (S "GBP", (⟨1, 1⟩, ⟨100000, 1⟩)),
    (S "CAD", (⟨1, 1⟩, ⟨130000, 1⟩)),
    (S "MXN", (⟨20, 1⟩, ⟨2000000, 1⟩)),
    (S "INR", (⟨50, 1⟩, ⟨7500000, 1⟩)),
    (S "AED", (⟨5, 1⟩, ⟨367000, 1⟩)),
    (S "JPY", (⟨100, 1⟩, ⟨11000000, 1⟩)),
    (S "CNY", (⟨10, 1⟩, ⟨700000, 1⟩)),
    (S "AUD", (⟨1, 1⟩, ⟨150000, 1⟩)),
    (S "CHF", (⟨1, 1⟩, ⟨100000, 1⟩)),
    (S "SEK", (⟨10, 1⟩, ⟨1000000, 1⟩)),
    (S "BRL", (⟨5, 1⟩, ⟨500000, 1⟩)),
    (S "ZAR", (⟨15, 1⟩, ⟨1500000, 1⟩)),
    (S "SGD", (⟨1, 1⟩, ⟨140000, 1⟩)),
    (S "HKD", (⟨8, 1⟩, ⟨780000, 1⟩)),
    (S "THB", (⟨30, 1⟩, ⟨3200000, 1⟩)),
    (S "MYR", (⟨4, 1⟩, ⟨420000, 1⟩)),
    (S "IDR", (⟨15000, 1⟩, ⟨1500000000, 1⟩)),
    (S "PHP", (⟨50, 1⟩, ⟨5000000, 1⟩)),
    (S "VND", (⟨23000, 1⟩, ⟨2300000000, 1⟩)),
    (S "TRY", (⟨8, 1⟩, ⟨800000, 1⟩)),
    (S "ILS", (⟨3, 1⟩, ⟨350000, 1⟩)),
    (S "EGP", (⟨16, 1⟩, ⟨1600000, 1⟩)),
    (S "QAR", (⟨4, 1⟩, ⟨360000, 1⟩)),
    (S "KWD", (⟨3, 10⟩, ⟨30000, 1⟩)),
    (S "BHD", (⟨4, 10⟩, ⟨38000, 1⟩)),
    (S "OMR", (⟨4, 10⟩, ⟨38000, 1⟩)),
    (S "SAR", (⟨4, 1⟩, ⟨375000, 1⟩)),
    (S "RUB", (⟨75, 1⟩, ⟨7500000, 1⟩)),
    (S "KRW", (⟨1200, 1⟩, ⟨120000000, 1⟩)) ]

/-- `REGION_CURRENCY_MAP`. -/
def REGION_CURRENCY_MAP : List (Str × Str) :=
  [ (S "US", S "USD"), (S "CA", S "CAD"), (S "MX", S "MXN"), (S "GB", S "GBP"),
    (S "DE", S "EUR"), (S "FR", S "EUR"), (S "IT", S "EUR"), (S "ES", S "EUR"),
    (S "NL", S "EUR"), (S "AT", S "EUR"), (S "BE", S "EUR"), (S "PT", S "EUR"),
    (S "IN", S "INR"), (S "AE", S "AED"), (S "SA", S "SAR"), (S "JP", S "JPY"),
    (S "CN", S "CNY"), (S "KR", S "KRW"), (S "AU", S "AUD"), (S "CH", S "CHF"),
    (S "SE", S "SEK"), (S "NO", S "NOK"), (S "DK", S "DKK"), (S "BR", S "BRL"),
    (S "ZA", S "ZAR"), (S "SG", S "SGD"), (S "HK", S "HKD"), (S "TH", S "THB"),
    (S "MY", S "MYR"), (S "ID", S "IDR"), (S "PH", S "PHP"), (S "VN", S "VND"),
    (S "TR", S "TRY"), (S "IL", S "ILS"), (S "EG", S "EGP"), (S "QA", S "QAR"),
    (S "KW", S "KWD"), (S "BH", S "BHD"), (S "OM", S "OMR"), (S "RU", S "RUB") ]

/-- `get_currency_info`. -/
def get_currency_info (code : Str) : CurrInfo :=
  (lookupStr CURRENCY_CONFIG (pyUpper code)).getD ⟨S "$", S "USD", S "US Dollar", 2⟩

/-- `get_currency_range`. -/
def get_currency_range (code : Str) : PyNum × PyNum :=
  (lookupStr CURRENCY_RANGES (pyUpper code)).getD (⟨1, 1⟩, ⟨100000, 1⟩)

/-- `get_currency_by_region`. -/
def get_currency_by_region (region : Str) : Str :=
  (lookupStr REGION_CURRENCY_MAP (pyUpper region)).getD (S "USD")

/-- `format_amount`: currency symbol plus fixed-point rendering with the
currency's decimal places. -/
def format_amount (v : PyNum) (code : Str) : Str :=
  let info := get_currency_info code
  info.symbol ++ formatFixed v info.decimalPlaces

/-! ### `currency_detector.py` -/

/-- The `region_indicators` table of `detect_document_currency_and_region`,
in source order. -/
def regionIndicators : List (Str × List Str) :=
  [ (S "US", [S "USA", S "UNITED STATES", S "ZIP CODE", S "STATE", S "LLC", S "INC", S "CORP"]),
    (S "CA", [S "CANADA", S "PROVINCE", S "POSTAL CODE", S "GST", S "HST", S "PST", S "TORONTO", S "VANCOUVER"]),
    (S "MX", [S "MEXICO", S "MÉXICO", S "RFC", S "FACTURA", S "PESO", S "MEXICO CITY"]),
    (S "GB", [S "UNITED KINGDOM", S "UK", S "VAT REG", S "POSTCODE", S "LTD", S "LONDON", S "MANCHESTER"]),
    (S "DE", [S "DEUTSCHLAND", S "GERMANY", S "MWST", S "GMBH", S "UG", S "BERLIN", S "HAMBURG"]),
    (S "FR", [S "FRANCE", S "SIRET", S "TVA", S "SARL", S "SAS", S "PARIS", S "LYON"]),
    (S "IT", [S "ITALY", S "ITALIA", S "IVA", S "SRL", S "SPA", S "ROME", S "MILAN"]),
    (S "ES", [S "SPAIN", S "ESPAÑA", S "IVA", S "SL", S "SA", S "MADRID", S "BARCELONA"]),
    (S "IN", [S "INDIA", S "GST", S "PAN", S "RUPEE", S "₹", S "MUMBAI", S "DELHI", S "BANGALORE"]),
    (S "AE", [S "UAE", S "EMIRATES", S "DUBAI", S "ABU DHABI", S "DIRHAM", S "SHARJAH"]),
    (S "SA", [S "SAUDI", S "ARABIA", S "RIYAL", S "VAT NO", S "RIYADH", S "JEDDAH"]),
    (S "AU", [S "AUSTRALIA", S "ABN", S "ACN", S "GST", S "A$", S "SYDNEY", S "MELBOURNE"]),
    (S "SG", [S "SINGAPORE", S "GST REG", S "UEN", S "S$"]),
    (S "HK", [S "HONG KONG", S "HK$", S "COMPANY REG"]),
    (S "JP", [S "JAPAN", S "YEN", S "¥", S "株式会社", S "TOKYO", S "OSAKA"]),
    (S "CN", [S "CHINA", S "YUAN", S "人民币", S "¥", S "BEIJING", S "SHANGHAI"]),
    (S "BR", [S "BRAZIL", S "BRASIL", S "CNPJ", S "CPF", S "REAL", S "SAO PAULO", S "RIO"]),
    (S "ZA", [S "SOUTH AFRICA", S "VAT NO", S "RAND", S "PTY", S "CAPE TOWN", S "JOHANNESBURG"]),
    (S "CH", [S "SWITZERLAND", S "SCHWEIZ", S "SUISSE", S "CHF", S "ZURICH", S "GENEVA"]),
    (S "SE", [S "SWEDEN", S "SVERIGE", S "KRONA", S "ORG NR", S "STOCKHOLM"]),
    (S "NO", [S "NORWAY", S "NORGE", S "KRONER", S "ORG NR", S "OSLO"]),
    (S "DK", [S "DENMARK", S "DANMARK", S "KRONER", S "CVR", S "COPENHAGEN"]),
    (S "TR", [S "TURKEY", S "TÜRKİYE", S "LIRA", S "VKN", S "ISTANBUL", S "ANKARA"]),
    (S "RU", [S "RUSSIA", S "РОССИЯ", S "РУБЛЬ", S "ИНН", S "MOSCOW", S "ST PETERSBURG"]),
    (S "IL", [S "ISRAEL", S "SHEKEL", S "₪", S "מס׳", S "TEL AVIV", S "JERUSALEM"]),
    (S "EG", [S "EGYPT", S "POUND", S "TAX REG", S "CAIRO"]),
    (S "QA", [S "QATAR", S "RIYAL", S "TAX NO", S "DOHA"]),
    (S "KW", [S "KUWAIT", S "DINAR", S "TAX REG", S "KUWAIT CITY"]),
    (S "BH", [S "BAHRAIN", S "DINAR", S "CR NO", S "MANAMA"]),
    (S "OM", [S "OMAN", S "RIAL", S "TAX REG", S "MUSCAT"]),
    (S "TH", [S "THAILAND", S "BAHT", S "฿", S "VAT", S "BANGKOK"]),
    (S "MY", [S "MALAYSIA", S "RINGGIT", S "RM", S "GST", S "KUALA LUMPUR"]),
    (S "ID", [S "INDONESIA", S "RUPIAH", S "RP", S "JAKARTA"]),
    (S "PH", [S "PHILIPPINES", S "PESO", S "₱", S "VAT", S "MANILA"]),
    (S "VN", [S "VIETNAM", S "DONG", S "₫", S "VAT", S "HO CHI MINH"]),
    (S "KR", [S "KOREA", S "WON", S "₩", S "VAT", S "SEOUL"]) ]

/-- The `currency_indicators` table, in source order. -/
def currencyIndicators : List (Str × List Str) :=
  [ (S "USD", [S "$", S "USD", S "DOLLAR", S "CENTS", S "US DOLLAR"]),
    (S "EUR", [S "€", S "EUR", S "EURO", S "EUROS"]),
    (S "GBP", [S "£", S "GBP", S "POUND", S "PENCE", S "STERLING"]),
    (S "CAD", [S "C$", S "CAD", S "CANADIAN", S "CANADIAN DOLLAR"]),
    (S "MXN", [S "MX$", S "MXN", S "PESO", S "MEXICAN PESO"]),
    (S "INR", [S "₹", S "INR", S "RUPEE", S "PAISA", S "INDIAN RUPEE"]),
    (S "AED", [S "د.إ", S "AED", S "DIRHAM", S "FILS", S "UAE DIRHAM"]),
    (S "JPY", [S "¥", S "JPY", S "YEN", S "JAPANESE YEN"]),
    (S "CNY", [S "¥", S "CNY", S "YUAN", S "RMB", S "CHINESE YUAN"]),
    (S "AUD", [S "A$", S "AUD", S "AUSTRALIAN", S "AUSTRALIAN DOLLAR"]),
    (S "CHF", [S "CHF", S "FRANC", S "SWISS FRANC"]),
    (S "SEK", [S "kr", S "SEK", S "KRONA", S "SWEDISH KRONA"]),
    (S "NOK", [S "kr", S "NOK", S "KRONE", S "NORWEGIAN KRONE"]),
    (S "DKK", [S "kr", S "DKK", S "KRONE", S "DANISH KRONE"]),
    (S "BRL", [S "R$", S "BRL", S "REAL", S "BRAZILIAN REAL"]),
    (S "ZAR", [S "R", S "ZAR", S "RAND", S "SOUTH AFRICAN RAND"]),
    (S "SGD", [S "S$", S "SGD", S "SINGAPORE", S "SINGAPORE DOLLAR"]),
    (S "HKD", [S "HK$", S "HKD", S "HONG KONG", S "HONG KONG DOLLAR"]),
    (S "RUB", [S "₽", S "RUB", S "RUBLE", S "RUSSIAN RUBLE"]),
    (S "TRY", [S "₺", S "TRY", S "LIRA", S "TURKISH LIRA"]),
    (S "ILS", [S "₪", S "ILS", S "SHEKEL", S "ISRAELI SHEKEL"]),
    (S "THB", [S "฿", S "THB", S "BAHT", S "THAI BAHT"]),
    (S "MYR", [S "RM", S "MYR", S "RINGGIT", S "MALAYSIAN RINGGIT"]),
    (S "IDR", [S "RP", S "IDR", S "RUPIAH", S "INDONESIAN RUPIAH"]),
    (S "PHP", [S "₱", S "PHP", S "PESO", S "PHILIPPINE PESO"]),
    (S "VND", [S "₫", S "VND", S "DONG", S "VIETNAMESE DONG"]),
    (S "SAR", [S "﷼", S "SAR", S "RIYAL", S "SAUDI RIYAL"]),
    (S "QAR", [S "﷼", S "QAR", S "RIYAL", S "QATARI RIYAL"]),
    (S "KWD", [S "د.ك", S "KWD", S "DINAR", S "KUWAITI DINAR"]),
    (S "BHD", [S ".د.ب", S "BHD", S "DINAR", S "BAHRAINI DINAR"]),
    (S "OMR", [S "﷼", S "OMR", S "RIAL", S "OMANI RIAL"]),
    (S "EGP", [S "EGP", S "EGYPTIAN", S "EGYPTIAN POUND"]),
    (S "KRW", [S "₩", S "KRW", S "WON", S "KOREAN WON"]) ]

/-- Number of indicators from `inds` contained in the (uppercased) text. -/
def indicatorScore (textU : Str) (inds : List Str) : Nat :=
  (inds.filter (fun ind => containsSub textU ind)).length

/-- The best-scoring fold of `detect_document_currency_and_region`:
starting from a default, take the first entry whose score strictly
exceeds every score seen so far. -/
def bestScoreFold (textU : Str) (init : Str) (tbl : List (Str × List Str)) : Str × Nat :=
  tbl.foldl
    (fun acc entry =>
      let sc := indicatorScore textU entry.2
      if sc > acc.2 then (entry.1, sc) else acc)
    (init, 0)

/-- Result record of `detect_document_currency_and_region`. -/
structure DetectedInfo where
  region : Str
  currency : Str
  regionConfidence : Nat
  currencyConfidence : Nat
deriving Repr, DecidableEq

/-- `detect_document_currency_and_region`: keyword-count scoring over the
two tables, `¥` disambiguation, and the region-based override when no
explicit currency indicator matched. -/
def detect_document_currency_and_region (text : Str) : DetectedInfo :=
  let textU := pyUpper text
  let (detectedRegion, regionConfidence) := bestScoreFold textU (S "US") regionIndicators
  let defaultCurrency := (lookupStr REGION_CURRENCY_MAP detectedRegion).getD (S "USD")
  let (detectedCurrency, currencyConfidence) := bestScoreFold textU defaultCurrency currencyIndicators
  let detectedCurrency :=
    if (detectedCurrency == S "JPY" || detectedCurrency == S "CNY") &&
        containsSub textU (S "¥") then
      if [S "JAPAN", S "YEN", S "株式会社", S "TOKYO"].any (containsSub textU ·) then S "JPY"
      else if [S "CHINA", S "YUAN", S "人民币", S "BEIJING"].any (containsSub textU ·) then S "CNY"
      else detectedCurrency
    else detectedCurrency
  if currencyConfidence == 0 then
    { region := detectedRegion,
      currency := (lookupStr REGION_CURRENCY_MAP detectedRegion).getD (S "USD"),
      regionConfidence := regionConfidence,
      currencyConfidence := regionConfidence }
  else
    { region := detectedRegion, currency := detectedCurrency,
      regionConfidence := regionConfidence, currencyConfidence := currencyConfidence }

/-! ### `formatters.py` -/

/-- The `european_regions` list of `normalize_amount_text`. -/
def europeanRegions : List Str :=
  [S "DE", S "FR", S "IT", S "ES", S "NL", S "AT", S "BE", S "PT",
   S "DK", S "NO", S "SE", S "FI"]

/-- `normalize_amount_text`: region-sensitive separator normalization of
a raw amount substring. -/
def normalize_amount_text (amountText : Str) (region : Str) : Str :=
  if amountText = [] then []
  else
    let t := pyStrip amountText
    if europeanRegions.contains region then
      if containsSub t (S ",") && containsSub t (S ".") then
        if rfindC ',' t > rfindC '.' t then
          replaceSub (replaceSub t (S ".") []) (S ",") (S ".")
        else replaceSub t (S ",") []
      else if containsSub t (S ",") && countC ',' t == 1 then
        let parts := splitOnChar ',' t
        if parts.length == 2 && (parts.getD 1 []).length ≤ 2 && allDigits (parts.getD 1 []) then
          replaceSub t (S ",") (S ".")
        else replaceSub t (S ",") []
      else t
    else
      if containsSub t (S ",") && containsSub t (S ".") then
        replaceSub t (S ",") []
      else if containsSub t (S ",") then
        let parts := splitOnChar ',' t
        if parts.length == 2 && (parts.getD 1 []).length == 3 && allDigits (parts.getD 1 []) then
          replaceSub t (S ",") []
        else t
      else t

/-! ### `amount_extractor.py` -/

/-- `_clean_amount_string`: strip currency symbol/code and all characters
other than digits and separators, then decide which separator is the
decimal one. -/
def clean_amount_string (amountStr : Str) (currencyCode : Str) : Str :=
  let info := get_currency_info currencyCode
  let c1 := replaceSub amountStr info.symbol []
  let c2 := replaceSub c1 currencyCode []
  let t := c2.filter (fun c => isDigitC c || c == '.' || c == ',')
  if containsSub t (S ",") && containsSub t (S ".") then
    if rfindC ',' t > rfindC '.' t then
      replaceSub (replaceSub t (S ".") []) (S ",") (S ".")
    else replaceSub t (S ",") []
  else if containsSub t (S ",") then
    let parts := splitOnChar ',' t
    if parts.length == 2 && (parts.getD 1 []).length ≤ 2 then
      replaceSub t (S ",") (S ".")
    else replaceSub t (S ",") []
  else t

/-- Language of the number group
`(\d{1,3}(?:,\d{3})*(?:\.\d{2})?|\d+(?:\.\d{2})?)` used by every
currency pattern (superset form: digit head of any positive length,
comma groups of exactly three digits, optional dot followed by exactly
two digits — every string either alternative can match has this shape). -/
def numShape (a : Str) (gs : List Str) (d : Option Str) : Str :=
  a ++ gs.flatMap (fun g => ',' :: g) ++
    (match d with
     | none => []
     | some d0 => '.' :: d0)

/-- The `high_value_keywords` list of `_calculate_amount_score`. -/
def highValueKeywords : List Str :=
  [S "TOTAL AMOUNT DUE", S "AMOUNT DUE", S "TOTAL DUE", S "BALANCE DUE",
   S "GRAND TOTAL", S "FINAL TOTAL", S "GROSS AMOUNT", S "PAYMENT DUE"]

/-- `_calculate_amount_score`. Fractional constants (`0.1`, `0.02`, the
sweet-spot bounds) are modelled exactly. -/
def calculate_amount_score (amountValue : PyNum) (fullText : Str)
    (patternPriority : Int) (detected : DetectedInfo) (currencyCode : Str)
    (isPrimary : Bool) : Int :=
  let score : Int := patternPriority * 100
  let score := if isPrimary then score + 200 else score
  let range := get_currency_range currencyCode
  let minA := range.1
  let maxA := range.2
  let score :=
    if PyNum.qle minA amountValue && PyNum.qle amountValue maxA then
      let score := score + 300
      if PyNum.qle (PyNum.pmul minA ⟨10, 1⟩) amountValue &&
          PyNum.qle amountValue (PyNum.pmul maxA ⟨1, 10⟩) then score + 150 else score
    else if PyNum.qlt (PyNum.pmul maxA ⟨10, 1⟩) amountValue then score - 500
    else if PyNum.qlt amountValue (PyNum.pmul minA ⟨1, 10⟩) then score - 300
    else score
  let info := get_currency_info currencyCode
  let score :=
    if info.decimalPlaces > 0 && !(PyNum.isIntVal amountValue) then score + 150 else score
  let amountStrF := formatFixed amountValue 2
  let score :=
    if highValueKeywords.any (fun kw =>
        containsSub fullText kw && containsSub fullText (replaceSub amountStrF (S ".") [])) then
      score + 400
    else score
  let region := detected.region
  let score :=
    if region == S "IN" && currencyCode == S "INR" &&
        PyNum.qle ⟨1000, 1⟩ amountValue && PyNum.qle amountValue ⟨1000000, 1⟩ then score + 150
    else if region == S "MX" && currencyCode == S "MXN" &&
        PyNum.qle ⟨500, 1⟩ amountValue && PyNum.qle amountValue ⟨50000, 1⟩ then score + 150
    else if region == S "AE" && currencyCode == S "AED" &&
        PyNum.qle ⟨100, 1⟩ amountValue && PyNum.qle amountValue ⟨10000, 1⟩ then score + 150
    else score
  let score :=
    if (currencyCode == S "ZAR" || currencyCode == S "MYR" || currencyCode == S "IDR") &&
        !isPrimary then score - 100
    else score
  max score 0

/-- `_validate_currency_context`: extra validation for the ambiguous
symbols `R`/`Rp`/`RM`/`Rs`. -/
def validate_currency_context (amountStr : Str) (currencyCode : Str) (fullText : Str) : Bool :=
  let info := get_currency_info currencyCode
  let sym := info.symbol
  if sym == S "R" || sym == S "Rp" || sym == S "RM" || sym == S "Rs" then
    let cleanAmount := pyStrip (replaceSub amountStr sym [])
    let p : RE := .seq .wb (.seq (.lit sym) (.seq (.star sC) (.seq (.lit cleanAmount) .wb)))
    let kws1 : RE :=
      .alt (.lit (S "TOTAL")) (.alt (.lit (S "AMOUNT")) (.alt (.lit (S "DUE"))
        (.alt (.lit (S "PRICE")) (.alt (.lit (S "COST")) (.alt (.lit (S "CHARGE")) (.lit (S "FEE")))))))
    let ctx1 : RE := .seq kws1 (.seq (.star sC) (.seq (.opt (.lit (S ":"))) (.seq (.star sC) p)))
    let kws2 : RE := .alt (.lit (S "TOTAL")) (.alt (.lit (S "DUE")) (.lit (S "AMOUNT")))
    let ctx2 : RE := .seq p (.seq (.star sC) kws2)
    let ctx3 : RE :=
      .seq (.alt .bol (.lit (S "\n"))) (.seq (.star sC)
        (.seq p (.seq (.star sC) (.alt .eol (.lit (S "\n"))))))
    pySearch ctx1 fullText || pySearch ctx2 fullText || pySearch ctx3 fullText
  else true

/-- An entry of `_build_currency_patterns` (the unused `context_required`
key is not read anywhere and is dropped). -/
structure PatternInfo where
  re : RE
  priority : Int
  description : Str
  validation : Bool

/-- Keyword phrase with `\s+` joining the words. -/
def kwSeq : List Str → RE
  | [] => .eps
  | [w] => .lit w
  | w :: ws => .seq (.lit w) (.seq (rePlus sC) (kwSeq ws))

/-- Left-nested alternation of a non-empty list. -/
def altL : List RE → RE
  | [] => .eps
  | [r] => r
  | r :: rs => .alt r (altL rs)

/-- The number pattern for zero-decimal currencies:
`(\d{1,3}(?:,\d{3})*|\d+)`. -/
def numberPatternNoDec : RE :=
  .grp (.alt
    (.seq (repRange dC 1 3) (.star (.seq (.lit (S ",")) (repExact dC 3))))
    (rePlus dC))

/-- The number pattern for decimal currencies:
`(\d{1,3}(?:,\d{3})*(?:\.\d{2})?|\d+(?:\.\d{2})?)`. -/
def numberPatternDec : RE :=
  .grp (.alt
    (.seq (repRange dC 1 3) (.seq (.star (.seq (.lit (S ",")) (repExact dC 3)))
      (.opt (.seq (.lit (S ".")) (repExact dC 2)))))
    (.seq (rePlus dC) (.opt (.seq (.lit (S ".")) (repExact dC 2)))))

/-- `[:\s]*` -/
def colonSpaceStar : RE := .star (.cls (fun c => c == ':' || isSpaceC c))

/-- `{escaped_symbol}?`: in the Python f-string the `?` quantifies only
the final character of the escaped symbol, so a multi-character symbol
keeps a mandatory stem. -/
def symbolOpt (sym : Str) : RE :=
  match sym.reverse with
  | [] => .eps
  | last :: rest => .seq (.lit rest.reverse) (.opt (.lit [last]))

/-- `_build_currency_patterns` for one currency, in source order. -/
def buildPatternsFor (code : Str) (info : CurrInfo) : List PatternInfo :=
  let sym := info.symbol
  let num := if info.decimalPlaces == 0 then numberPatternNoDec else numberPatternDec
  let tail : RE := .seq colonSpaceStar (.seq (symbolOpt sym) (.seq (.star sC) num))
  [ ⟨.seq (altL [kwSeq [S "TOTAL", S "AMOUNT", S "DUE"], kwSeq [S "AMOUNT", S "DUE"],
        kwSeq [S "TOTAL", S "DUE"], kwSeq [S "BALANCE", S "DUE"]]) tail,
      10, code ++ S " Total Amount Due", false⟩,
    ⟨.seq (altL [kwSeq [S "THIS", S "AMOUNT", S "DUE"], kwSeq [S "PAYMENT", S "DUE"]]) tail,
      9, code ++ S " Payment Due", false⟩,
    ⟨.seq (altL [kwSeq [S "GRAND", S "TOTAL"], kwSeq [S "FINAL", S "TOTAL"],
        kwSeq [S "ESTIMATE", S "TOTAL"]]) tail,
      8, code ++ S " Grand Total", false⟩,
    ⟨.seq (altL [kwSeq [S "TOTAL", S "AMOUNT"], kwSeq [S "AMOUNT", S "TOTAL"]]) tail,
      8, code ++ S " Total Amount", false⟩,
    ⟨.seq (altL [kwSeq [S "GROSS", S "AMOUNT"], kwSeq [S "BETRAG", S "BRUTTO"],
        kwSeq [S "MONTANT", S "TTC"], kwSeq [S "IMPORTE", S "TOTAL"]])
      (.seq colonSpaceStar
        (.seq (.opt (.seq (.lit (S "INCL")) (.seq (.opt (.lit (S ".")))
          (.seq (.star sC) (.opt (altL [.lit (S "VAT"), .lit (S "TAX"),
            .lit (S "MWST"), .lit (S "TVA"), .lit (S "IVA")]))))))
        (.seq (.star sC) (.seq (symbolOpt sym) (.seq (.star sC) num))))),
      7, code ++ S " Gross Amount", false⟩,
    ⟨.seq (.lit (S "TOTAL")) tail, 5, code ++ S " Total", false⟩,
    ⟨.seq (.nlb isWordC) (.seq (.lit sym) (.seq (.star sC)
        (.seq num (.nla (.cls isWordC))))),
      4, code ++ S " Symbol Amount", true⟩,
    ⟨.seq (.lit code) (.seq (.star sC) num), 3, code ++ S " Code Amount", false⟩ ]

/-- `self.currency_patterns`, built once per currency in config order. -/
def currency_patterns : List (Str × List PatternInfo) :=
  CURRENCY_CONFIG.map (fun p => (p.1, buildPatternsFor p.1 p.2))

/-- An extracted amount candidate (`all_amounts` entry). -/
structure Amount where
  value : PyNum
  formatted : Str
  currency : Str
  score : Int
  patternUsed : Str
  priority : Int
  region : Str
  isPrimaryCurrency : Bool
  originalText : Str
deriving Repr, DecidableEq

/-- The inner loop of `_extract_with_currency_patterns` for one pattern:
normalize, clean, parse, score, filter (`score < 50` dropped, parse
failures dropped). -/
def processMatches (textU : Str) (code : Str) (detected : DetectedInfo)
    (primary : Bool) (pinfo : PatternInfo) : List Amount :=
  let priority := if primary then pinfo.priority + 5 else pinfo.priority
  (pyFindAll pinfo.re textU).filterMap fun amountStr =>
    if amountStr.isEmpty then none
    else if pinfo.validation && !(validate_currency_context amountStr code textU) then none
    else
      let normalized := normalize_amount_text amountStr detected.region
      let cleanA := clean_amount_string normalized code
      match pyFloat cleanA with
      | none => none
      | some v =>
        if PyNum.qlt ⟨0, 1⟩ v then
          let score := calculate_amount_score v textU priority detected code primary
          if score < 50 then none
          else
            some { value := v, formatted := format_amount v code, currency := code,
                   score := score, patternUsed := pinfo.description, priority := priority,
                   region := detected.region, isPrimaryCurrency := primary,
                   originalText := amountStr }
        else none

/-- `_extract_with_currency_patterns` (candidates appended in pattern
order). -/
def extract_with_currency_patterns (textU : Str) (code : Str)
    (detected : DetectedInfo) (primary : Bool) : List Amount :=
  ((lookupStr currency_patterns code).getD []).flatMap
    (processMatches textU code detected primary)

/-- Scan the accumulated unique list for a (2%-same-currency) duplicate of
`a`; when found, keep the higher-scoring record in place. -/
def mergeDup : List Amount → Amount → Option (List Amount)
  | [], _ => none
  | e :: es, a =>
    if e.currency == a.currency &&
        PyNum.qle (PyNum.pabs (PyNum.psub a.value e.value))
          (PyNum.pmul (PyNum.pmax a.value e.value) ⟨2, 100⟩) then
      some ((if e.score < a.score then a else e) :: es)
    else
      (mergeDup es a).map (e :: ·)

/-- `_remove_duplicate_amounts`. -/
def remove_duplicate_amounts (amounts : List Amount) : List Amount :=
  amounts.foldl
    (fun acc a =>
      match mergeDup acc a with
      | some acc' => acc'
      | none => acc ++ [a])
    []

/-- Stable descending insertion by score (`list.sort(key=score,
reverse=True)` keeps insertion order between equal scores). -/
def insertByScoreDesc (x : Amount) : List Amount → List Amount
  | [] => [x]
  | y :: ys => if x.score > y.score then x :: y :: ys else y :: insertByScoreDesc x ys

/-- Stable descending sort by score. -/
def sortByScoreDesc (l : List Amount) : List Amount :=
  l.foldl (fun acc x => insertByScoreDesc x acc) []

/-- `max(a['score'] for a in amounts)` (callers guard non-emptiness). -/
def maxScoreOf : List Amount → Int
  | [] => 0
  | a :: as => as.foldl (fun m x => max m x.score) a.score

/-- The common secondary currency list of `extract_amounts`. -/
def commonSecondary : List Str := [S "USD", S "EUR", S "GBP", S "CAD"]

/-- The list of non-primary currencies whose patterns `extract_amounts`
runs after the primary pass: the small common set when the primary pass
was weak (no candidate, or best score below 1000), otherwise every
configured currency. -/
def secondaryCurrencyList (primary : Str) (primaryAmounts : List Amount) : List Str :=
  if primaryAmounts.isEmpty || maxScoreOf primaryAmounts < 1000 then
    (if commonSecondary.contains primary then [] else commonSecondary).filter
      (fun c => !(c == primary))
  else
    (CURRENCY_CONFIG.map (·.1)).filter (fun c => !(c == primary))

/-- The candidate pipeline of `extract_amounts`: primary pass, secondary
passes, deduplication, stable descending sort. -/
def extract_amount_candidates (text : Str) : List Amount :=
  let detected := detect_document_currency_and_region text
  let textU := pyUpper text
  let primary := detected.currency
  let primaryAmounts := extract_with_currency_patterns textU primary detected true
  let allAmounts := primaryAmounts ++
    (secondaryCurrencyList primary primaryAmounts).flatMap
      (fun c => extract_with_currency_patterns textU c detected false)
  sortByScoreDesc (remove_duplicate_amounts allAmounts)

/-- The dictionary returned by `extract_amounts`. -/
structure AmountInfo where
  finalAmount : Str
  currency : Str
  region : Str
  allDetectedAmounts : List Str
  amountCount : Nat
  bestScore : Int
  detection : DetectedInfo
  primaryCurrency : Str
deriving Repr, DecidableEq

/-- `extract_amounts`. -/
def extract_amounts (text : Str) : AmountInfo :=
  let detected := detect_document_currency_and_region text
  let unique := extract_amount_candidates text
  { finalAmount := match unique with | [] => S "Unknown" | a :: _ => a.formatted,
    currency := match unique with | [] => detected.currency | a :: _ => a.currency,
    region := detected.region,
    allDetectedAmounts := (unique.take 10).map (·.formatted),
    amountCount := unique.length,
    bestScore := match unique with | [] => 0 | a :: _ => a.score,
    detection := detected,
    primaryCurrency := detected.currency }

/-! ### `business_indicators.py` -/

/-- `BUSINESS_INDICATORS` (region → entity suffixes), in source order. -/
def BUSINESS_INDICATORS : List (Str × List Str) :=
  [ (S "US", [S "LLC", S "INC", S "CORP", S "COMPANY", S "CO.", S "LTD", S "CORPORATION", S "ENTERPRISES", S "GROUP"]),
    (S "CA", [S "LTD", S "CORP", S "INC", S "COMPANY", S "LTÉE", S "CORPORÉE", S "ENTERPRISES"]),
    (S "MX", [S "SA DE CV", S "SC", S "AC", S "SOCIEDAD", S "EMPRESA", S "COMPAÑÍA"]),
    (S "DE", [S "GMBH", S "AG", S "KG", S "OHG", S "GMBH & CO", S "UG", S "GESELLSCHAFT"]),
    (S "AT", [S "GMBH", S "AG", S "KG", S "OHG", S "GESELLSCHAFT"]),
    (S "CH", [S "AG", S "GMBH", S "SARL", S "SA", S "GESELLSCHAFT"]),
    (S "FR", [S "SARL", S "SAS", S "SA", S "EURL", S "SNC", S "SOCIETE", S "SOCIÉTÉ"]),
    (S "IT", [S "SRL", S "SPA", S "SNCA", S "SOCIETA", S "SOCIETÀ"]),
    (S "ES", [S "SL", S "SA", S "SLU", S "SOCIEDAD", S "EMPRESA"]),
    (S "PT", [S "LDA", S "SA", S "SOCIEDADE", S "EMPRESA"]),
    (S "SE", [S "AB", S "AKTIEBOLAG", S "HB", S "KB", S "FÖRETAG"]),
    (S "NO", [S "AS", S "ASA", S "BA", S "DA", S "SELSKAP"]),
    (S "DK", [S "A/S", S "APS", S "I/S", S "K/S", S "SELSKAB"]),
    (S "FI", [S "OY", S "OYJ", S "KY", S "YHTIÖ"]),
    (S "GB", [S "LTD", S "LIMITED", S "PLC", S "COMPANY", S "CORP"]),
    (S "NL", [S "BV", S "NV", S "VOF", S "CV", S "MAATSCHAPPIJ"]),
    (S "BE", [S "BVBA", S "SA", S "NV", S "SPRL", S "MAATSCHAPPIJ"]),
    (S "IE", [S "LTD", S "LIMITED", S "PLC", S "TEORANTA"]),
    (S "IN", [S "PVT LTD", S "LIMITED", S "LLP", S "PRIVATE LIMITED", S "COMPANY"]),
    (S "JP", [S "株式会社", S "KK", S "CO LTD", S "CORPORATION", S "KABUSHIKI KAISHA"]),
    (S "CN", [S "有限公司", S "CO LTD", S "LIMITED", S "CORPORATION", S "COMPANY"]),
    (S "KR", [S "주식회사", S "CO LTD", S "CORPORATION", S "COMPANY"]),
    (S "SG", [S "PTE LTD", S "LIMITED", S "COMPANY", S "CORP"]),
    (S "HK", [S "LIMITED", S "LTD", S "COMPANY", S "CORP"]),
    (S "TH", [S "CO LTD", S "LIMITED", S "COMPANY", S "CORPORATION"]),
    (S "MY", [S "SDN BHD", S "BHD", S "COMPANY", S "CORPORATION"]),
    (S "ID", [S "PT", S "CV", S "FIRMA", S "PERUSAHAAN"]),
    (S "PH", [S "CORP", S "INC", S "COMPANY", S "CORPORATION"]),
    (S "VN", [S "CO LTD", S "JSC", S "COMPANY", S "CORPORATION"]),
    (S "TW", [S "CO LTD", S "LIMITED", S "COMPANY", S "CORPORATION"]),
    (S "AE", [S "LLC", S "FZCO", S "FZE", S "COMPANY", S "ESTABLISHMENT"]),
    (S "SA", [S "LLC", S "CO", S "COMPANY", S "ESTABLISHMENT", S "CORPORATION"]),
    (S "QA", [S "LLC", S "WLL", S "COMPANY", S "ESTABLISHMENT"]),
    (S "KW", [S "WLL", S "KSC", S "COMPANY", S "ESTABLISHMENT"]),
    (S "BH", [S "WLL", S "BSC", S "COMPANY", S "ESTABLISHMENT"]),
    (S "OM", [S "LLC", S "SAOG", S "COMPANY", S "ESTABLISHMENT"]),
    (S "IL", [S "LTD", S "LIMITED", S "COMPANY", S "CORP"]),
    (S "TR", [S "AS", S "LTD STI", S "COMPANY", S "ŞIRKET"]),
    (S "ZA", [S "PTY LTD", S "LIMITED", S "COMPANY", S "CC", S "CORPORATION"]),
    (S "EG", [S "SAE", S "LLC", S "COMPANY", S "CORPORATION"]),
    (S "NG", [S "LTD", S "LIMITED", S "COMPANY", S "CORP"]),
    (S "KE", [S "LTD", S "LIMITED", S "COMPANY", S "CORP"]),
    (S "AU", [S "PTY LTD", S "LIMITED", S "COMPANY", S "CORP"]),
    (S "NZ", [S "LIMITED", S "LTD", S "COMPANY", S "CORP"]),
    (S "BR", [S "LTDA", S "SA", S "EIRELI", S "SOCIEDADE", S "EMPRESA"]),
    (S "AR", [S "SA", S "SRL", S "SOCIEDAD", S "EMPRESA"]),
    (S "CL", [S "SA", S "LTDA", S "SOCIEDAD", S "EMPRESA"]),
    (S "CO", [S "SA", S "LTDA", S "SOCIEDAD", S "EMPRESA"]),
    (S "PE", [S "SA", S "SAC", S "SOCIEDAD", S "EMPRESA"]),
    (S "RU", [S "ООО", S "ОАО", S "ЗАО", S "ИП", S "ОБЩЕСТВО"]),
    (S "PL", [S "SP Z OO", S "SA", S "SPÓŁKA", S "FIRMA"]),
    (S "CZ", [S "SRO", S "AS", S "SPOLEČNOST", S "FIRMA"]),
    (S "HU", [S "KFT", S "RT", S "BT", S "TÁRSASÁG"]),
    (S "UA", [S "ТОВ", S "ПАТ", S "ТОВАРИСТВО", S "КОМПАНІЯ"]) ]

/-- The `common_indicators` always appended by
`get_business_indicators_by_region`. -/
def commonBizIndicators : List Str :=
  [S "COMPANY", S "CORP", S "LIMITED", S "LTD", S "INC"]

/-- `get_business_indicators_by_region`. The final `list(set(...))` is
modelled by the `setEnum` parameter: CPython enumerates the set in a
hash-dependent order that varies between interpreter processes
(`PYTHONHASHSEED`), so the embedding is parametric in the enumeration. A
valid enumeration is any duplicate-free permutation of the combined
list's elements. -/
def get_business_indicators_by_region (setEnum : List Str → List Str) (region : Str) : List Str :=
  let inds := (lookupStr BUSINESS_INDICATORS (pyUpper region)).getD
    ((lookupStr BUSINESS_INDICATORS (S "US")).getD [])
  setEnum (inds ++ commonBizIndicators)

/-- The property a faithful `setEnum` must satisfy: it enumerates exactly
the distinct elements of its input, each once, in some order. -/
abbrev IsSetEnumOf (out inp : List Str) : Prop :=
  out.Nodup ∧ (∀ x ∈ out, x ∈ inp) ∧ (∀ x ∈ inp, x ∈ out)

/-! ### `vendor_extractor.py` -/

/-- The `avoid_words` set (used only for membership tests, so enumeration
order is irrelevant and a list model is exact). -/
def avoidWords : List Str :=
  [S "ESTIMATE", S "INVOICE", S "BILL", S "RECEIPT", S "STATEMENT", S "ORDER",
   S "PAGE", S "COPY", S "TOTAL", S "AMOUNT", S "DUE", S "DATE", S "NUMBER",
   S "CUSTOMER", S "CLIENT", S "SERVICE", S "PAYMENT", S "BALANCE",
   S "DESCRIPTION", S "QUANTITY", S "PRICE", S "TAX", S "SUBTOTAL"]

/-- Python `s.split()` (whitespace split, empty pieces dropped). -/
def splitWSGo : Str → Str → List Str
  | [], acc => if acc = [] then [] else [acc.reverse]
  | c :: cs, acc =>
    if isSpaceC c then
      (if acc = [] then splitWSGo cs [] else acc.reverse :: splitWSGo cs [])
    else splitWSGo cs (c :: acc)

/-- Python `s.split()`. -/
def pySplitWS (s : Str) : List Str := splitWSGo s []

/-- A vendor candidate record. -/
structure VCand where
  name : Str
  score : Int
  source : Str
  method : Str
deriving Repr, DecidableEq

/-- The junk patterns of `_clean_vendor_name` (applied with `re.sub`,
empty replacement, `re.IGNORECASE`; the operand never contains a newline
by the time this runs, so `^`/`$` coincide with their multiline forms). -/
def junkREs : List RE :=
  [ .seq (.star sC) (.seq (.lit (S "IF NOT RECEIVED")) (.seq (.star dotC) .eol)),
    .seq (.star sC) (.seq (.lit (S "BILL TO")) (.seq (.star dotC) .eol)),
    .seq (.star sC) (.seq (.lit (S "INVOICE TO")) (.seq (.star dotC) .eol)),
    .seq (.star sC) (.seq (.lit (S "SHIP TO")) (.seq (.star dotC) .eol)),
    .seq (.star sC) (.seq (.lit (S "PLEASE MAKE")) (.seq (.star dotC) .eol)),
    .seq (.star sC) (.seq (.lit (S "ACCOUNT NUMBER")) (.seq (.star dotC) .eol)),
    .seq (.star sC) (.seq (.lit (S "DUE DATE")) (.seq (.star dotC) .eol)),
    .seq (.star sC) (.seq (.lit (S "AMOUNT DUE")) (.seq (.star dotC) .eol)),
    .seq (.star sC) (.seq (.lit (S "TOTAL")) (.seq (.star dotC) .eol)),
    .seq (.star sC) (.seq (.lit (S "INVOICE NUMBER")) (.seq (.star dotC) .eol)),
    .seq .bol (.seq (.star sC) (.seq (.lit (S "PO BOX")) (.seq (.star dotC) .eol))),
    .seq .bol (.seq (.star sC) (.seq (.lit (S "P.O.")) (.seq (.star dotC) .eol))),
    .seq (.star dotC) (.seq (.lit (S "@")) (.star dotC)),
    .seq (.star dotC) (.seq (.lit (S ".com")) (.star dotC)),
    .seq (.star dotC) (.seq (repExact dC 3)
      (.seq (.cls (fun c => c == '-' || c == '.' || isSpaceC c)) (.seq (repExact dC 3)
        (.seq (.cls (fun c => c == '-' || c == '.' || isSpaceC c))
          (.seq (repExact dC 4) (.star dotC)))))) ]

/-- `_clean_vendor_name`. -/
def clean_vendor_name (vendorText : Str) : Str :=
  if vendorText = [] then []
  else
    let cleaned := pyStrip vendorText
    let cleaned := junkREs.foldl (fun s re => pySub re [] s) cleaned
    let cleaned := pyStrip ((splitLines cleaned).getD 0 [])
    let cleaned := pySub
      (.alt (.seq .bol (rePlus (.cls (fun c => !(isWordC c || isSpaceC c)))))
        (.seq (rePlus (.cls (fun c =>
          !(isWordC c || isSpaceC c || c == '.' || c == '&' || c == '-')))) .eol))
      [] cleaned
    let cleaned := pySub (rePlus sC) (S " ") cleaned
    let cleaned := if pyIsUpper cleaned && cleaned.length > 10 then pyTitle cleaned else cleaned
    pyStrip cleaned

/-- The anchored skip pattern of `_should_skip_line`:
`^[\d\s\-\(\)#:$,.\+]+$`. -/
def skipLineRE : RE :=
  .seq (rePlus (.cls (fun c => isDigitC c || isSpaceC c || c == '-' || c == '(' ||
    c == ')' || c == '#' || c == ':' || c == '$' || c == ',' || c == '.' || c == '+'))) .eol

/-- The punctuation set of `_should_skip_line` (literal
`!@#$%^&*()_+-=[]{}|;:,.<>?`). -/
def skipPunct : Str := S "!@#$%^&*()_+-=[]\x7b\x7d|;:,.<>?"

/-- `_should_skip_line`. The `punct > len * 0.3` float comparison is
modelled exactly as `10 * punct > 3 * len`; concrete inputs stay away
from the one-ulp boundary. -/
def should_skip_line (line : Str) : Bool :=
  let lineU := pyUpper line
  if avoidWords.any (fun w => containsSub lineU w) then true
  else if pyMatchAt skipLineRE line then true
  else if (pyStrip line).length < 3 then true
  else 10 * countP (fun c => skipPunct.contains c) line > 3 * line.length

/-- The positive/brand word lists used by the header heuristics. -/
def autoBrands : List Str :=
  [S "NISSAN", S "TOYOTA", S "FORD", S "HONDA", S "BMW", S "AUDI"]

/-- The location-word list of `_extract_company_names_from_line`. -/
def locationWords : List Str :=
  [S "DUBLIN", S "DOWNTOWN", S "CITY", S "METRO", S "NORTH", S "SOUTH", S "EAST", S "WEST"]

/-- `_looks_like_company_name`. Note that the final two statements of the
source (`if any(positive): return True` followed by `return True`) both
return `True`, so once the filters pass the function accepts. -/
def looks_like_company_name (line : Str) : Bool :=
  if line.length = 0 then false
  else if 10 * countP isAlphaC line < 6 * line.length then false
  else
    match line with
    | [] => false
    | c0 :: _ =>
      if !(isUpperC c0) then false
      else if line.length > 15 && pyIsUpper line &&
          !((autoBrands ++ [S "CORP", S "LLC", S "INC"]).any
            (fun w => containsSub (pyUpper line) w)) then false
      else if pySearch (repAtLeast dC 3) line then false
      else if pySearch (.lit (S "@")) line then false
      else if pySearch (.lit (S ".com")) line then false
      else if pySearch (.lit (S "http")) line then false
      else if pySearch (.lit (S "www")) line then false
      else if pySearch (.lit (S "ESTIMATE")) line then false
      else if pySearch (.lit (S "INVOICE")) line then false
      else if pySearch (.lit (S "TOTAL")) line then false
      else true

/-- `_is_valid_vendor_name` (original validator). -/
def is_valid_vendor_name (v : Str) : Bool :=
  if v = [] || v.length < 3 then false
  else if v.length > 80 then false
  else if 10 * countP isDigitC v > 7 * v.length then false
  else
    let vU := pyUpper v
    if pySearch (.seq .bol (.seq (rePlus dC) .eol)) vU then false
    else if pySearch (.seq .bol (.seq (.star (.cls (fun c => !(isAlphaC c)))) .eol)) vU then false
    else if pySearch (altL [.lit (S "TOTAL"), .lit (S "AMOUNT"), .lit (S "DUE"),
        .lit (S "DATE"), .lit (S "NUMBER"), .lit (S "INVOICE")]) vU then false
    else true

/-- `_is_valid_vendor_name_improved`. Float thresholds `0.5` and `0.3`
are modelled exactly by cross-multiplication. -/
def is_valid_vendor_name_improved (v : Str) : Bool :=
  if v = [] || v.length < 3 then false
  else if v.length > 60 then false
  else if avoidWords.any (fun w => containsSub (pyUpper v) w) then false
  else if 2 * countP isAlphaC v < v.length then false
  else if 10 * countP (fun c => !(c.isAlphanum) && c != ' ') v > 3 * v.length then false
  else true

/-- `_calculate_vendor_quality_score`. -/
def calculate_vendor_quality_score (v : Str) : Int :=
  let score : Int := 0
  let score :=
    if 10 ≤ v.length && v.length ≤ 40 then score + 30
    else if 5 ≤ v.length && v.length ≤ 60 then score + 20
    else score - 10
  let score := if v.any isUpperC then score + 10 else score
  let score := if v.any isLowerC then score + 10 else score
  let score := if countP isDigitC v > 3 then score - 20 else score
  let special := countP (fun c => !(c.isAlphanum) && !((S " .,&-").contains c)) v
  score - (special : Int) * 5

/-- The `business_words` list of `_calculate_business_indicator_score`. -/
def businessWords : List Str :=
  [S "COMPANY", S "CORP", S "CORPORATION", S "GROUP", S "SERVICES", S "SOLUTIONS",
   S "ENTERPRISES", S "SYSTEMS", S "TECHNOLOGIES", S "CONSULTING", S "MANAGEMENT"]

/-- `_calculate_business_indicator_score` (each loop at most one bonus). -/
def calculate_business_indicator_score (bizInds : List Str) (v : Str) : Int :=
  let vU := pyUpper v
  let score : Int := if bizInds.any (fun i => containsSub vU (pyUpper i)) then 50 else 0
  if businessWords.any (fun w => containsSub vU w) then score + 20 else score

/-- The five `_build_vendor_patterns` patterns (pattern, priority,
description). Under `re.IGNORECASE` the classes `[A-Z]`, `[a-z]`,
`[A-Za-z...]` all match any ASCII letter. -/
def vendorPatterns : List (RE × Int × Str) :=
  [ (.seq (altL [.lit (S "FROM"), kwSeq [S "INVOICE", S "FROM"],
        kwSeq [S "BILL", S "FROM"], .lit (S "SENDER")])
      (.seq (.lit (S ":")) (.seq (.star sC)
        (.seq (.grp (rePlusL dotC)) (.alt (.lit (S "\n")) .eol)))),
     10, S "Explicit FROM pattern"),
    (.seq (altL [kwSeq [S "FACTURA", S "DE"], kwSeq [S "RECHNUNG", S "VON"],
        kwSeq [S "FACTURE", S "DE"]])
      (.seq (.lit (S ":")) (.seq (.star sC)
        (.seq (.grp (rePlusL dotC)) (.alt (.lit (S "\n")) .eol)))),
     10, S "Multi-language FROM pattern"),
    (.seq (altL [.lit (S "FROM"), .lit (S "VENDOR"), .lit (S "SUPPLIER")])
      (.seq (.lit (S ":")) (.seq (.star sC)
        (.seq (.grp (rePlusL dotC)) (.alt (.lit (S "\n")) .eol)))),
     10, S "Explicit vendor pattern"),
    (.seq .bol (.seq (.grp (rePlusL dotC))
      (.seq (.lit (S "\n")) (.seq (.star dotC)
        (altL [.lit (S "INVOICE"), .lit (S "FACTURA"), .lit (S "RECHNUNG"), .lit (S "FACTURE")])))),
     8, S "Header before invoice keyword"),
    (.seq .bol (.seq (.grp (.seq (.cls isAlphaC)
        (.seq (repRange (.cls (fun c => isAlphaC c || isSpaceC c || c == '&')) 3 40)
          (altL [.lit (S "LLC"), .lit (S "INC"), .lit (S "CORP"), .lit (S "LTD"),
            .lit (S "COMPANY"), .lit (S "CO.")]))))
      .wb),
     9, S "Business entity pattern") ]

/-- `_extract_with_patterns`. -/
def extract_with_patterns (text : Str) : List VCand :=
  vendorPatterns.flatMap fun pat =>
    (pyFindAll pat.1 text).filterMap fun m =>
      let cleaned := clean_vendor_name m
      if cleaned ≠ [] && is_valid_vendor_name_improved cleaned then
        some { name := cleaned,
               score := pat.2.1 * 10 + calculate_vendor_quality_score cleaned,
               source := S "pattern_" ++ pat.2.2, method := S "regex_pattern" }
      else none

/-- Non-empty stripped lines of the document
(`[line.strip() for line in text.split('\n') if line.strip()]`). -/
def nonEmptyLines (text : Str) : List Str :=
  ((splitLines text).map pyStrip).filter (fun l => l ≠ [])

/-- `_extract_from_header` (original header scan over the first 10
lines). -/
def extract_from_header (bizInds : List Str) (text : Str) : List VCand :=
  ((nonEmptyLines text).take 10).enum.filterMap fun il =>
    let i : Nat := il.1
    let cleaned := clean_vendor_name il.2
    if cleaned ≠ [] && is_valid_vendor_name cleaned then
      some { name := cleaned,
             score := max (10 - (i : Int)) 1 * 10 + calculate_vendor_quality_score cleaned +
               calculate_business_indicator_score bizInds cleaned,
             source := S "header_line_" ++ natDigits i, method := S "header_analysis" }
    else none

/-- Pattern 1 of `_extract_company_names_from_line`. In the Python
f-string the intended quantifier `{2, 40}` is a replacement field
evaluating the tuple `(2, 40)`, so the pattern contains the literal text
`(2, 40)` — an extra capture group matching only that text. -/
def companyPat1 (ind : Str) : RE :=
  .seq (.grp (.seq (.cls isAlphaC)
    (.seq (.cls (fun c => isAlphaC c || isSpaceC c || c == '&' || c == '.'))
      (.seq (.grp (.lit (S "2, 40"))) (.seq (rePlus sC) (.lit ind)))))) .wb

/-- `_extract_company_names_from_line`. When pattern 1 matches, CPython's
`findall` returns 2-tuples (the pattern has two groups) and
`_clean_vendor_name(match)` raises `AttributeError` on the tuple; that
exception path is modelled as `none`. -/
def extract_company_names_from_line (bizInds : List Str) (line : Str) (lineIdx : Nat) :
    Option (List VCand) :=
  let lineU := pyUpper line
  if bizInds.any (fun ind => containsSub lineU (pyUpper ind) &&
      !(pyFindAll (companyPat1 ind) line).isEmpty) then none
  else
    some <|
      if lineIdx < 5 then
        let words := pySplitWS line
        if 2 ≤ words.length && words.length ≤ 6 && looks_like_company_name line then
          let cleaned := clean_vendor_name line
          if is_valid_vendor_name_improved cleaned then
            let score : Int := 150 + (5 - (lineIdx : Int)) * 30
            let score := if autoBrands.any (fun w => containsSub lineU w) then score + 100 else score
            let score := if locationWords.any (fun w => containsSub lineU w) then score + 50 else score
            [{ name := cleaned, score := score,
               source := S "header_company_line_" ++ natDigits lineIdx,
               method := S "header_multiword" }]
          else []
        else []
      else []

/-- `_extract_from_header_improved` (first 8 non-empty lines; the
exception from `_extract_company_names_from_line` propagates). -/
def extract_from_header_improved (bizInds : List Str) (text : Str) : Option (List VCand) :=
  ((nonEmptyLines text).take 8).enum.foldl
    (fun acc il =>
      acc.bind fun cs =>
        if should_skip_line il.2 then some cs
        else (extract_company_names_from_line bizInds il.2 il.1).map (cs ++ ·))
    (some [])

/-- `_extract_with_business_indicators` (original): for each line, the
first indicator (in `bizInds` order) contained in it may produce one
candidate. -/
def extract_with_business_indicators (bizInds : List Str) (text : Str) : List VCand :=
  (nonEmptyLines text).enum.filterMap fun il =>
    let i := il.1
    let line := il.2
    let lineU := pyUpper line
    (bizInds.find? (fun ind => containsSub lineU (pyUpper ind))).bind fun ind =>
      let cleaned := clean_vendor_name line
      if cleaned ≠ [] && is_valid_vendor_name cleaned then
        some { name := cleaned,
               score := 150 + calculate_vendor_quality_score cleaned + max (20 - (i : Int)) 0,
               source := S "business_indicator_" ++ ind, method := S "business_indicator" }
      else none

/-- The real-quantifier pattern of `_extract_with_business_indicators_improved`:
`([A-Z][A-Za-z\s&\.-]{2,50}\s+IND)\b`. -/
def bizImpPat (ind : Str) : RE :=
  .seq (.grp (.seq (.cls isAlphaC)
    (.seq (repRange (.cls (fun c => isAlphaC c || isSpaceC c || c == '&' || c == '.' || c == '-')) 2 50)
      (.seq (rePlus sC) (.lit ind))))) .wb

/-- One line of `_extract_with_business_indicators_improved`: every
contained indicator contributes (the `break` only stops at the first
valid match of that indicator's pattern). -/
def bizImprovedLineCands (bizInds : List Str) (line : Str) (i : Nat) : List VCand :=
  let lineU := pyUpper line
  bizInds.filterMap fun ind =>
    if containsSub lineU (pyUpper ind) then
      let ms := pyFindAll (bizImpPat ind) line
      let ms := if ms.isEmpty then (if looks_like_company_name line then [line] else []) else ms
      ((ms.filterMap fun m =>
          let cleaned := clean_vendor_name m
          if is_valid_vendor_name_improved cleaned then some cleaned else none).head?).map
        fun cleaned =>
          let indicatorBonus : Int :=
            if ind == S "LLC" || ind == S "INC" || ind == S "CORP" || ind == S "COMPANY" then 50
            else 30
          { name := cleaned, score := 180 + max (30 - 2 * (i : Int)) 0 + indicatorBonus,
            source := S "business_indicator_" ++ ind ++ S "_line_" ++ natDigits i,
            method := S "business_indicator_improved" }
    else none

/-- `_extract_with_business_indicators_improved` (first 15 non-empty
lines, skip-filtered). -/
def extract_with_business_indicators_improved (bizInds : List Str) (text : Str) : List VCand :=
  ((nonEmptyLines text).take 15).enum.flatMap fun il =>
    if should_skip_line il.2 then [] else bizImprovedLineCands bizInds il.2 il.1

/-- The three `_extract_from_structure` patterns (under `re.IGNORECASE`
each letter class matches any ASCII letter). -/
def structureSuffix : RE :=
  altL [.lit (S "LLC"), .lit (S "INC"), .lit (S "CORP"), .lit (S "GMBH"),
    .lit (S "SARL"), .lit (S "LTD")]

/-- `_extract_from_structure` pattern list. -/
def structureREs : List RE :=
  [ .grp (.seq (rePlus (.cls (fun c => c != ',' && c != '\n')))
      (.seq structureSuffix (.star (.cls (fun c => c != ',' && c != '\n'))))),
    .grp (.seq (.cls isAlphaC) (.seq (rePlus (.cls isAlphaC))
      (.seq (.star (.seq (rePlus sC) (.seq (.cls isAlphaC) (rePlus (.cls isAlphaC)))))
        (.seq (rePlus sC) structureSuffix)))),
    .grp (.seq (.cls isAlphaC)
      (.seq (repRange (.cls (fun c => isAlphaC c || isSpaceC c)) 10 50) structureSuffix)) ]

/-- `_extract_from_structure` (its unused `region` parameter is
dropped). -/
def extract_from_structure (text : Str) : List VCand :=
  structureREs.flatMap fun re =>
    (pyFindAll re text).filterMap fun m =>
      let cleaned := clean_vendor_name m
      if cleaned ≠ [] && is_valid_vendor_name cleaned then
        some { name := cleaned, score := 100 + calculate_vendor_quality_score cleaned,
               source := S "structure_analysis", method := S "structured_pattern" }
      else none

/-- `_calculate_similarity(s1, s2) > 0.8`, exactly:
`common / max_len > 0.8  ↔  5 * common > 4 * max_len`. -/
def similarityGT08 (s1 s2 : Str) : Bool :=
  if s1 = [] || s2 = [] then false
  else 5 * (s1.filter (fun c => s2.contains c)).length > 4 * max s1.length s2.length

/-- Duplicate test of `_remove_duplicate_vendors` (exact, substring
either way, or similarity above 0.8). -/
def vendorDupMatch (e v : VCand) : Bool :=
  let vn := pyUpper v.name
  let en := pyUpper e.name
  vn == en || containsSub en vn || containsSub vn en || similarityGT08 vn en

/-- Scan accumulated unique vendors for a duplicate of `v`, keeping the
higher-scoring record in place. -/
def mergeDupV : List VCand → VCand → Option (List VCand)
  | [], _ => none
  | e :: es, v =>
    if vendorDupMatch e v then
      some ((if e.score < v.score then v else e) :: es)
    else
      (mergeDupV es v).map (e :: ·)

/-- `_remove_duplicate_vendors`. -/
def remove_duplicate_vendors (cands : List VCand) : List VCand :=
  cands.foldl
    (fun acc v =>
      match mergeDupV acc v with
      | some acc' => acc'
      | none => acc ++ [v])
    []

/-- Stable descending insertion by score for vendor candidates. -/
def insertVByScoreDesc (x : VCand) : List VCand → List VCand
  | [] => [x]
  | y :: ys => if x.score > y.score then x :: y :: ys else y :: insertVByScoreDesc x ys

/-- Stable descending sort by score for vendor candidates. -/
def sortVByScoreDesc (l : List VCand) : List VCand :=
  l.foldl (fun acc x => insertVByScoreDesc x acc) []

/-- The dictionary returned by `extract_vendor`. -/
structure VendorInfo where
  name : Str
  candidates : List Str
  bestScore : Int
  region : Str
  method : Str
  source : Str
deriving Repr, DecidableEq

/-- `extract_vendor`. `setEnum` fixes the set-enumeration order used by
`get_business_indicators_by_region` (hash-dependent in CPython); `none`
models the `AttributeError` escape from
`_extract_company_names_from_line`. -/
def extract_vendor (setEnum : List Str → List Str) (text : Str) : Option VendorInfo :=
  let detected := detect_document_currency_and_region text
  let region := detected.region
  let bizInds := get_business_indicators_by_region setEnum region
  let c1 := extract_with_patterns text
  (extract_from_header_improved bizInds text).map fun c2 =>
    let c2b := extract_from_header bizInds text
    let c3 := extract_with_business_indicators_improved bizInds text
    let c3b := extract_with_business_indicators bizInds text
    let c4 := extract_from_structure text
    let unique := sortVByScoreDesc
      (remove_duplicate_vendors (c1 ++ c2 ++ c2b ++ c3 ++ c3b ++ c4))
    { name := ((unique.head?).map (·.name)).getD (S "Unknown"),
      candidates := (unique.take 3).map (·.name),
      bestScore := ((unique.head?).map (·.score)).getD 0,
      region := region,
      method := S "improved_vendor_extraction",
      source := ((unique.head?).map (·.source)).getD (S "none") }

/-! ### `hybrid_service.py`

The two backends are external collaborators; a call to
`process_invoice` is modelled relative to the request-scoped results the
backends would return (`DocAiResult`, `OcrResult`). The returned trace
lists the backend calls the orchestrator performs, in order. Result
dictionaries are flattened: a key absent on a failure branch is the
neutral value (`[]` / `0`). Timing metadata and the `processing_details`
diagnostics are not modelled. -/

inductive BackendCall where
  | docAiCall
  | ocrCall
deriving Repr, DecidableEq

structure Entity where
  etype : Str
  mentionText : Str
deriving Repr, DecidableEq

/-- Result of `document_ai_service.process_document`. -/
structure DocAiResult where
  success : Bool
  documentText : Str
  entities : List Entity
  confidenceScores : List PyNum
deriving Repr, DecidableEq

/-- Result of `ocr_service.extract_text`. -/
structure OcrResult where
  success : Bool
  extractedText : Str
deriving Repr, DecidableEq

/-- Addition of fractions (for the confidence average). -/
def padd (a b : PyNum) : PyNum :=
  ⟨a.num * (b.den : Int) + b.num * (a.den : Int), a.den * b.den⟩

/-- `sum(scores) / len(scores) if scores else 0.0`. -/
def pyAvg (l : List PyNum) : PyNum :=
  match l with
  | [] => ⟨0, 1⟩
  | _ =>
    let s := l.foldl padd ⟨0, 1⟩
    ⟨s.num, s.den * l.length⟩

/-- The flattened processing-result dictionary. -/
structure HybridResult where
  success : Bool
  message : Str
  method : Str
  vendorName : Str
  vendorCandidates : List Str
  vendorBestScore : Int
  totalAmount : Str
  detectedAmounts : List Str
  currency : Str
  region : Str
  confidenceScore : PyNum
  strategyUsed : Str
deriving Repr, DecidableEq

/-- `_extract_vendor_from_entities` (fallback when `extract_vendor`
raises): first entity whose lowered type is a supplier/vendor name. -/
def extract_vendor_from_entities (entities : List Entity) : Str :=
  match entities.find? (fun e =>
      let t := pyLower e.etype
      t == S "supplier_name" || t == S "vendor_name" || t == S "remit_to_name") with
  | some e => if e.mentionText ≠ [] then e.mentionText else S "Unknown"
  | none => S "Unknown"

/-- The indicator list of `_extract_vendor_from_text_simple`. -/
def simpleBizIndicators : List Str :=
  [S "LLC", S "INC", S "CORP", S "COMPANY", S "LTD", S "GMBH", S "SARL", S "SAS"]

/-- `_extract_vendor_from_text_simple` (fallback when `extract_vendor`
raises on the OCR path): name and `best_score`. -/
def extract_vendor_from_text_simple (text : Str) : Str × Int :=
  let lines := nonEmptyLines text
  match (lines.take 5).find? (fun line =>
      simpleBizIndicators.any (fun ind => containsSub (pyUpper line) ind) &&
      3 < line.length && line.length < 60) with
  | some line => (line, 60)
  | none => (lines.headD (S "Unknown"), 30)

/-- `_process_with_ocr_primary`. -/
def process_with_ocr_primary (setEnum : List Str → List Str) (ocr : OcrResult) :
    HybridResult × List BackendCall :=
  if ocr.success && !ocr.extractedText.isEmpty then
    let amountInfo := extract_amounts ocr.extractedText
    let vendor :=
      match extract_vendor setEnum ocr.extractedText with
      | some v => (v.name, v.candidates, v.bestScore)
      | none =>
        let sv := extract_vendor_from_text_simple ocr.extractedText
        (sv.1, [], sv.2)
    ({ success := true,
       message := S "✅ Processed with OCR + Global Currency Processing",
       method := S "ocr_primary",
       vendorName := vendor.1, vendorCandidates := vendor.2.1, vendorBestScore := vendor.2.2,
       totalAmount := amountInfo.finalAmount,
       detectedAmounts := amountInfo.allDetectedAmounts,
       currency := amountInfo.currency, region := amountInfo.region,
       confidenceScore := ⟨7, 10⟩, strategyUsed := [] },
     [.ocrCall])
  else
    ({ success := false, message := S "❌ OCR processing failed",
       method := S "ocr_primary", vendorName := [], vendorCandidates := [],
       vendorBestScore := 0, totalAmount := [], detectedAmounts := [],
       currency := [], region := [], confidenceScore := ⟨0, 1⟩, strategyUsed := [] },
     [.ocrCall])

/-- `_process_with_document_ai_primary`: Document AI first; on failure or
empty text, one fall-through to the OCR path. -/
def process_with_document_ai_primary (setEnum : List Str → List Str)
    (docAi : DocAiResult) (ocr : OcrResult) : HybridResult × List BackendCall :=
  if docAi.success && !docAi.documentText.isEmpty then
    let amountInfo := extract_amounts docAi.documentText
    let vendor :=
      match extract_vendor setEnum docAi.documentText with
      | some v => (v.name, v.candidates, v.bestScore)
      | none => (extract_vendor_from_entities docAi.entities, [], (80 : Int))
    ({ success := true,
       message := S "✅ Processed with Document AI + Global Currency Processing",
       method := S "document_ai_primary",
       vendorName := vendor.1, vendorCandidates := vendor.2.1, vendorBestScore := vendor.2.2,
       totalAmount := amountInfo.finalAmount,
       detectedAmounts := amountInfo.allDetectedAmounts,
       currency := amountInfo.currency, region := amountInfo.region,
       confidenceScore := pyAvg docAi.confidenceScores, strategyUsed := [] },
     [.docAiCall])
  else
    let r := process_with_ocr_primary setEnum ocr
    (r.1, .docAiCall :: r.2)

/-- `_process_with_dual_approach`. The comparison
`doc_len > ocr_len * 1.2` is modelled exactly as `5·doc > 6·ocr`. After
picking a winner the source re-invokes the corresponding primary method,
calling that backend a second time; the trace reflects this. -/
def process_with_dual_approach (setEnum : List Str → List Str)
    (docAi : DocAiResult) (ocr : OcrResult) : HybridResult × List BackendCall :=
  let base : List BackendCall := [.docAiCall, .ocrCall]
  let docOk := docAi.success && !docAi.documentText.isEmpty
  let ocrOk := ocr.success && !ocr.extractedText.isEmpty
  if docOk && ocrOk then
    if 5 * docAi.documentText.length > 6 * ocr.extractedText.length then
      let r := process_with_document_ai_primary setEnum docAi ocr
      (r.1, base ++ r.2)
    else
      let r := process_with_ocr_primary setEnum ocr
      (r.1, base ++ r.2)
  else if docOk then
    let r := process_with_document_ai_primary setEnum docAi ocr
    (r.1, base ++ r.2)
  else if ocrOk then
    let r := process_with_ocr_primary setEnum ocr
    (r.1, base ++ r.2)
  else
    ({ success := false, message := S "❌ Both Document AI and OCR failed",
       method := S "dual_approach", vendorName := [], vendorCandidates := [],
       vendorBestScore := 0, totalAmount := [], detectedAmounts := [],
       currency := [], region := [], confidenceScore := ⟨0, 1⟩, strategyUsed := [] },
     base)

/-- `_process_with_fallback` (no backend is called). -/
def process_with_fallback : HybridResult × List BackendCall :=
  ({ success := false, message := S "❌ No processing services available",
     method := S "fallback", vendorName := [], vendorCandidates := [],
     vendorBestScore := 0, totalAmount := [], detectedAmounts := [],
     currency := [], region := [], confidenceScore := ⟨0, 1⟩, strategyUsed := [] },
   [])

/-- `_determine_processing_strategy`: a pure function of the MIME type,
the byte size, and the two availability flags. -/
def determine_processing_strategy (mime : Str) (fileSize : Nat)
    (docAiAvailable ocrAvailable : Bool) : Str :=
  let isPdf := mime == S "application/pdf"
  let isImage := startsWithStr mime (S "image/")
  let isLargeFile : Bool := decide (fileSize > 5 * 1024 * 1024)
  if docAiAvailable && isPdf then S "document_ai_primary"
  else if docAiAvailable && isImage && !isLargeFile then S "dual_processing"
  else if ocrAvailable && isImage then S "ocr_primary"
  else if docAiAvailable then S "document_ai_primary"
  else if ocrAvailable then S "ocr_primary"
  else S "fallback"

/-- `process_invoice` (orchestration steps 2–4; image enhancement does
not change the modelled backend results, and timing metadata is
dropped). -/
def process_invoice (setEnum : List Str → List Str) (mime : Str) (fileSize : Nat)
    (docAiAvailable ocrAvailable : Bool) (docAi : DocAiResult) (ocr : OcrResult) :
    HybridResult × List BackendCall :=
  let strategy := determine_processing_strategy mime fileSize docAiAvailable ocrAvailable
  let r :=
    if strategy == S "document_ai_primary" then
      process_with_document_ai_primary setEnum docAi ocr
    else if strategy == S "ocr_primary" then
      process_with_ocr_primary setEnum ocr
    else if strategy == S "dual_processing" then
      process_with_dual_approach setEnum docAi ocr
    else
      process_with_fallback
  ({ r.1 with strategyUsed := strategy }, r.2)

/-! ### Spec-side definitions (for the refinement claims)

These definitions follow the specification's words, to be compared with
the definitions above, which follow the source. -/

/-- The spec's `ProcessingStrategy` enum. -/
inductive ProcessingStrategy where
  | CloudPrimary
  | LocalPrimary
  | DualCompare
  | Unavailable
deriving Repr, DecidableEq

/-- The spec's names for the source's strategy strings. -/
def strategyOfCode (s : Str) : Option ProcessingStrategy :=
  if s == S "document_ai_primary" then some .CloudPrimary
  else if s == S "ocr_primary" then some .LocalPrimary
  else if s == S "dual_processing" then some .DualCompare
  else if s == S "fallback" then some .Unavailable
  else none

/-- The claim's decision table, read as an ordered decision list (the
spec lists the rules separated by semicolons; "only cloudAvailable" /
"only ocrAvailable" mean exactly one backend available). Inputs covered
by no rule (both backends available with a non-PDF, non-image MIME type)
yield `none`: the claim says nothing about them. Modelled from the
spec: rules of §4.6 / C1. -/
def spec_strategy_rules (mime : Str) (size : Nat)
    (cloudAvailable ocrAvailable : Bool) : Option ProcessingStrategy :=
  let isPdf := mime == S "application/pdf"
  let isImage := startsWithStr mime (S "image/")
  if isPdf && cloudAvailable then some .CloudPrimary
  else if isImage && cloudAvailable && !(decide (size > 5 * 1024 * 1024)) then some .DualCompare
  else if isImage && (!cloudAvailable || decide (size > 5 * 1024 * 1024)) && ocrAvailable then
    some .LocalPrimary
  else if cloudAvailable && !ocrAvailable then some .CloudPrimary
  else if ocrAvailable && !cloudAvailable then some .LocalPrimary
  else if !cloudAvailable && !ocrAvailable then some .Unavailable
  else none

/-- C1: orchestrator strategy selection is a pure function of the MIME
type, byte size and the two availability flags (it is embedded as such a
function), and on every input covered by the claim's decision table the
selected strategy is the table's strategy; when neither backend is
available the orchestrator performs no backend call. -/
theorem strategy_selection_follows_spec_table (mime : Str) (size : Nat)
    (cloudAvailable ocrAvailable : Bool) :
    (∀ st : ProcessingStrategy,
      spec_strategy_rules mime size cloudAvailable ocrAvailable = some st →
      strategyOfCode (determine_processing_strategy mime size cloudAvailable ocrAvailable) =
        some st) ∧
    (spec_strategy_rules mime size cloudAvailable ocrAvailable = some .Unavailable →
      ∀ (setEnum : List Str → List Str) (docAi : DocAiResult) (ocr : OcrResult),
        (process_invoice setEnum mime size cloudAvailable ocrAvailable docAi ocr).2 = []) := by
  have hps : ¬(mime == S "application/pdf") = true ∨
      ¬(startsWithStr mime (S "image/")) = true := by
    by_cases h1 : (mime == S "application/pdf") = true
    · right
      have h2 : mime = S "application/pdf" := by
        simpa using h1
      subst h2
      decide
    · left; exact h1
  have e1 : (S "fallback" == S "document_ai_primary") = false := by decide
  have e2 : (S "fallback" == S "ocr_primary") = false := by decide
  have e3 : (S "fallback" == S "dual_processing") = false := by decide
  have n1 : S "fallback" ≠ S "document_ai_primary" := by decide
  have n2 : S "fallback" ≠ S "ocr_primary" := by decide
  have n3 : S "fallback" ≠ S "dual_processing" := by decide
  have m1 : S "ocr_primary" ≠ S "document_ai_primary" := by decide
  have m2 : S "dual_processing" ≠ S "document_ai_primary" := by decide
  have m3 : S "dual_processing" ≠ S "ocr_primary" := by decide
  have m4 : S "document_ai_primary" ≠ S "ocr_primary" := by decide
  have m5 : S "document_ai_primary" ≠ S "dual_processing" := by decide
  have m6 : S "ocr_primary" ≠ S "dual_processing" := by decide
  constructor
  · intro st hst
    unfold spec_strategy_rules at hst
    unfold determine_processing_strategy strategyOfCode
    rcases hca : cloudAvailable <;> rcases hoa : ocrAvailable <;>
      rcases hpdf : (mime == S "application/pdf") <;>
      rcases himg : (startsWithStr mime (S "image/")) <;>
      rcases hsz : decide (size > 5 * 1024 * 1024) <;>
      simp_all [m1, m2, m3, m4, m5, m6]
  · intro hst setEnum docAi ocr
    unfold spec_strategy_rules at hst
    unfold process_invoice determine_processing_strategy
    rcases hca : cloudAvailable <;> rcases hoa : ocrAvailable <;>
      rcases hpdf : (mime == S "application/pdf") <;>
      rcases himg : (startsWithStr mime (S "image/")) <;>
      rcases hsz : decide (size > 5 * 1024 * 1024) <;>
      simp_all [process_with_fallback, e1, e2, e3, n1, n2, n3]

/-- C1 witness: the table applies to a PDF with both backends available
(CloudPrimary) and to the no-backend case (Unavailable, empty trace). -/
theorem strategy_selection_follows_spec_table_witness :
    strategyOfCode (determine_processing_strategy (S "application/pdf") 100 true true) =
      some .CloudPrimary ∧
    (process_invoice (fun l => l) (S "text/plain") 7 false false
      ⟨false, [], [], []⟩ ⟨false, []⟩).2 = [] := by
  refine ⟨(strategy_selection_follows_spec_table (S "application/pdf") 100 true true).1
    .CloudPrimary (by decide), ?_⟩
  exact (strategy_selection_follows_spec_table (S "text/plain") 7 false false).2
    (by decide) (fun l => l) ⟨false, [], [], []⟩ ⟨false, []⟩

/-- C2 counterexample: the claim says the fallback result is tagged
`methodUsed="LocalPrimary(fallback)"`. In the source, when the cloud
engine fails and OCR succeeds, the method tag is the plain
`"ocr_primary"` (the code name of LocalPrimary), byte-identical to the
tag of a direct LocalPrimary run, and `process_invoice` still records
`strategy_used="document_ai_primary"`; no `"(fallback)"` marker exists
anywhere. Concrete run: failing cloud result, OCR returning the text
"ACME LLC". -/
theorem cloud_fallback_tag_counterexample :
    (process_with_document_ai_primary (fun l => l)
        ⟨false, [], [], []⟩ ⟨true, S "ACME LLC"⟩).1.method = S "ocr_primary" ∧
    (process_with_ocr_primary (fun l => l) ⟨true, S "ACME LLC"⟩).1.method = S "ocr_primary" ∧
    (process_invoice (fun l => l) (S "application/pdf") 9 true true
        ⟨false, [], [], []⟩ ⟨true, S "ACME LLC"⟩).1.strategyUsed = S "document_ai_primary" ∧
    S "ocr_primary" ≠ S "LocalPrimary(fallback)" := by
  refine ⟨rfl, rfl, rfl, by decide⟩

/-- C2 (amended): under the CloudPrimary strategy, if the cloud engine
call fails or returns empty text while OCR succeeds with non-empty text,
the orchestrator falls through to the local OCR path exactly once (trace:
one cloud call then one OCR call, no retry), the result has
`success=true`, and it carries the plain LocalPrimary method tag
(`"ocr_primary"`), identical to the result of a direct LocalPrimary
run — there is no separate `"LocalPrimary(fallback)"` tag. -/
theorem cloud_fallback_single_no_retry (setEnum : List Str → List Str)
    (docAi : DocAiResult) (ocr : OcrResult)
    (hCloud : (docAi.success && !docAi.documentText.isEmpty) = false)
    (hOcr : (ocr.success && !ocr.extractedText.isEmpty) = true) :
    (process_with_document_ai_primary setEnum docAi ocr).1.success = true ∧
    (process_with_document_ai_primary setEnum docAi ocr).1.method = S "ocr_primary" ∧
    (process_with_document_ai_primary setEnum docAi ocr).2 =
      [BackendCall.docAiCall, BackendCall.ocrCall] ∧
    (process_with_document_ai_primary setEnum docAi ocr).1 =
      (process_with_ocr_primary setEnum ocr).1 := by
  unfold process_with_document_ai_primary
  rw [hCloud]
  simp only [Bool.false_eq_true, if_false]
  unfold process_with_ocr_primary
  rw [hOcr]
  simp

/-- C2 witness for the amended theorem at a concrete failing cloud
result and succeeding OCR result. -/
theorem cloud_fallback_single_no_retry_witness :
    (process_with_document_ai_primary (fun l => l)
        ⟨false, S "x", [], []⟩ ⟨true, S "y"⟩).1.success = true ∧
    (process_with_document_ai_primary (fun l => l)
        ⟨false, S "x", [], []⟩ ⟨true, S "y"⟩).1.method = S "ocr_primary" ∧
    (process_with_document_ai_primary (fun l => l) ⟨false, S "x", [], []⟩ ⟨true, S "y"⟩).2 =
      [BackendCall.docAiCall, BackendCall.ocrCall] ∧
    (process_with_document_ai_primary (fun l => l) ⟨false, S "x", [], []⟩ ⟨true, S "y"⟩).1 =
      (process_with_ocr_primary (fun l => l) ⟨true, S "y"⟩).1 :=
  cloud_fallback_single_no_retry (fun l => l) ⟨false, S "x", [], []⟩ ⟨true, S "y"⟩
    (by decide) (by decide)

/-- Failure shape of the OCR-primary branch. -/
theorem ocr_primary_failure_shape (setEnum : List Str → List Str) (ocr : OcrResult)
    (h : (process_with_ocr_primary setEnum ocr).1.success = false) :
    (process_with_ocr_primary setEnum ocr).1.vendorCandidates = [] ∧
    (process_with_ocr_primary setEnum ocr).1.detectedAmounts = [] ∧
    (process_with_ocr_primary setEnum ocr).1.message ≠ [] := by
  by_cases hc : (ocr.success && !ocr.extractedText.isEmpty) = true
  · have hs : (process_with_ocr_primary setEnum ocr).1.success = true := by
      unfold process_with_ocr_primary
      rw [if_pos hc]
    rw [hs] at h
    cases h
  · have he : (process_with_ocr_primary setEnum ocr).1.success = false ∧
        (process_with_ocr_primary setEnum ocr).1.vendorCandidates = [] ∧
        (process_with_ocr_primary setEnum ocr).1.detectedAmounts = [] ∧
        (process_with_ocr_primary setEnum ocr).1.message ≠ [] := by
      unfold process_with_ocr_primary
      rw [if_neg hc]
      exact ⟨rfl, rfl, rfl, by decide⟩
    exact he.2

/-- Failure shape of the Document-AI-primary branch. -/
theorem docai_primary_failure_shape (setEnum : List Str → List Str)
    (docAi : DocAiResult) (ocr : OcrResult)
    (h : (process_with_document_ai_primary setEnum docAi ocr).1.success = false) :
    (process_with_document_ai_primary setEnum docAi ocr).1.vendorCandidates = [] ∧
    (process_with_document_ai_primary setEnum docAi ocr).1.detectedAmounts = [] ∧
    (process_with_document_ai_primary setEnum docAi ocr).1.message ≠ [] := by
  by_cases hc : (docAi.success && !docAi.documentText.isEmpty) = true
  · have hs : (process_with_document_ai_primary setEnum docAi ocr).1.success = true := by
      unfold process_with_document_ai_primary
      rw [if_pos hc]
    rw [hs] at h
    cases h
  · have he : process_with_document_ai_primary setEnum docAi ocr =
        ((process_with_ocr_primary setEnum ocr).1,
          .docAiCall :: (process_with_ocr_primary setEnum ocr).2) := by
      unfold process_with_document_ai_primary
      rw [if_neg hc]
    rw [he] at h ⊢
    exact ocr_primary_failure_shape setEnum ocr h

/-- Failure shape of the dual-approach branch. -/
theorem dual_approach_failure_shape (setEnum : List Str → List Str)
    (docAi : DocAiResult) (ocr : OcrResult)
    (h : (process_with_dual_approach setEnum docAi ocr).1.success = false) :
    (process_with_dual_approach setEnum docAi ocr).1.vendorCandidates = [] ∧
    (process_with_dual_approach setEnum docAi ocr).1.detectedAmounts = [] ∧
    (process_with_dual_approach setEnum docAi ocr).1.message ≠ [] := by
  by_cases hd : (docAi.success && !docAi.documentText.isEmpty) = true <;>
    by_cases ho : (ocr.success && !ocr.extractedText.isEmpty) = true
  · by_cases hlen : 5 * docAi.documentText.length > 6 * ocr.extractedText.length
    · have he : process_with_dual_approach setEnum docAi ocr =
          ((process_with_document_ai_primary setEnum docAi ocr).1,
            [.docAiCall, .ocrCall] ++ (process_with_document_ai_primary setEnum docAi ocr).2) := by
        unfold process_with_dual_approach
        rw [if_pos (by simp [hd, ho]), if_pos hlen]
      rw [he] at h ⊢
      exact docai_primary_failure_shape setEnum docAi ocr h
    · have he : process_with_dual_approach setEnum docAi ocr =
          ((process_with_ocr_primary setEnum ocr).1,
            [.docAiCall, .ocrCall] ++ (process_with_ocr_primary setEnum ocr).2) := by
        unfold process_with_dual_approach
        rw [if_pos (by simp [hd, ho]), if_neg hlen]
      rw [he] at h ⊢
      exact ocr_primary_failure_shape setEnum ocr h
  · have he : process_with_dual_approach setEnum docAi ocr =
        ((process_with_document_ai_primary setEnum docAi ocr).1,
          [.docAiCall, .ocrCall] ++ (process_with_document_ai_primary setEnum docAi ocr).2) := by
      unfold process_with_dual_approach
      rw [if_neg (by simp [hd, ho]), if_pos hd]
    rw [he] at h ⊢
    exact docai_primary_failure_shape setEnum docAi ocr h
  · have he : process_with_dual_approach setEnum docAi ocr =
        ((process_with_ocr_primary setEnum ocr).1,
          [.docAiCall, .ocrCall] ++ (process_with_ocr_primary setEnum ocr).2) := by
      unfold process_with_dual_approach
      rw [if_neg (by simp [hd, ho]), if_neg hd, if_pos ho]
    rw [he] at h ⊢
    exact ocr_primary_failure_shape setEnum ocr h
  · have he : (process_with_dual_approach setEnum docAi ocr).1.success = false ∧
        (process_with_dual_approach setEnum docAi ocr).1.vendorCandidates = [] ∧
        (process_with_dual_approach setEnum docAi ocr).1.detectedAmounts = [] ∧
        (process_with_dual_approach setEnum docAi ocr).1.message ≠ [] := by
      unfold process_with_dual_approach
      rw [if_neg (by simp [hd, ho]), if_neg hd, if_neg ho]
      exact ⟨rfl, rfl, rfl, by decide⟩
    exact he.2

/-- C8: whenever `process_invoice` returns `success=false`, both the
vendor-candidate list and the amount-candidate list of the result are
empty (the failure dictionaries carry no `extracted_data`) and the
message is non-empty. -/
theorem failed_result_has_no_candidates (setEnum : List Str → List Str)
    (mime : Str) (size : Nat) (cloudAvailable ocrAvailable : Bool)
    (docAi : DocAiResult) (ocr : OcrResult)
    (h : (process_invoice setEnum mime size cloudAvailable ocrAvailable docAi ocr).1.success =
      false) :
    (process_invoice setEnum mime size cloudAvailable ocrAvailable docAi ocr).1.vendorCandidates
        = [] ∧
    (process_invoice setEnum mime size cloudAvailable ocrAvailable docAi ocr).1.detectedAmounts
        = [] ∧
    (process_invoice setEnum mime size cloudAvailable ocrAvailable docAi ocr).1.message ≠ [] := by
  by_cases h1 : (determine_processing_strategy mime size cloudAvailable ocrAvailable ==
      S "document_ai_primary") = true
  · have he : process_invoice setEnum mime size cloudAvailable ocrAvailable docAi ocr =
        ({ (process_with_document_ai_primary setEnum docAi ocr).1 with
            strategyUsed := determine_processing_strategy mime size cloudAvailable ocrAvailable },
          (process_with_document_ai_primary setEnum docAi ocr).2) := by
      unfold process_invoice
      simp only []
      rw [if_pos h1]
    rw [he] at h ⊢
    exact docai_primary_failure_shape setEnum docAi ocr h
  · by_cases h2 : (determine_processing_strategy mime size cloudAvailable ocrAvailable ==
        S "ocr_primary") = true
    · have he : process_invoice setEnum mime size cloudAvailable ocrAvailable docAi ocr =
          ({ (process_with_ocr_primary setEnum ocr).1 with
              strategyUsed := determine_processing_strategy mime size cloudAvailable ocrAvailable },
            (process_with_ocr_primary setEnum ocr).2) := by
        unfold process_invoice
        simp only []
        rw [if_neg h1, if_pos h2]
      rw [he] at h ⊢
      exact ocr_primary_failure_shape setEnum ocr h
    · by_cases h3 : (determine_processing_strategy mime size cloudAvailable ocrAvailable ==
          S "dual_processing") = true
      · have he : process_invoice setEnum mime size cloudAvailable ocrAvailable docAi ocr =
            ({ (process_with_dual_approach setEnum docAi ocr).1 with
                strategyUsed := determine_processing_strategy mime size cloudAvailable ocrAvailable },
              (process_with_dual_approach setEnum docAi ocr).2) := by
          unfold process_invoice
          simp only []
          rw [if_neg h1, if_neg h2, if_pos h3]
        rw [he] at h ⊢
        exact dual_approach_failure_shape setEnum docAi ocr h
      · have he : process_invoice setEnum mime size cloudAvailable ocrAvailable docAi ocr =
            ({ process_with_fallback.1 with
                strategyUsed := determine_processing_strategy mime size cloudAvailable ocrAvailable },
              process_with_fallback.2) := by
          unfold process_invoice
          simp only []
          rw [if_neg h1, if_neg h2, if_neg h3]
        rw [he]
        refine ⟨rfl, rfl, ?_⟩
        show S "❌ No processing services available" ≠ []
        decide

/-- C8 witness: a concrete failed call (no backend available). -/
theorem failed_result_has_no_candidates_witness :
    (process_invoice (fun l => l) (S "image/png") 9 false false
        ⟨false, [], [], []⟩ ⟨false, []⟩).1.vendorCandidates = [] ∧
    (process_invoice (fun l => l) (S "image/png") 9 false false
        ⟨false, [], [], []⟩ ⟨false, []⟩).1.detectedAmounts = [] ∧
    (process_invoice (fun l => l) (S "image/png") 9 false false
        ⟨false, [], [], []⟩ ⟨false, []⟩).1.message ≠ [] :=
  failed_result_has_no_candidates (fun l => l) (S "image/png") 9 false false
    ⟨false, [], [], []⟩ ⟨false, []⟩ (by decide)

/-! ### Membership lemmas for the amount pipeline -/

/-- Every candidate built by `processMatches` carries a score of at least
50 (the `score < 50` filter), the currency it was searched under, and the
primary flag of its pass. -/
theorem processMatches_mem {textU code : Str} {detected : DetectedInfo} {primary : Bool}
    {pinfo : PatternInfo} {c : Amount}
    (hc : c ∈ processMatches textU code detected primary pinfo) :
    50 ≤ c.score ∧ c.currency = code ∧ c.isPrimaryCurrency = primary := by
  unfold processMatches at hc
  rcases List.mem_filterMap.mp hc with ⟨a, -, hfa⟩
  simp only [] at hfa
  by_cases h1 : a.isEmpty = true
  · rw [if_pos h1] at hfa; cases hfa
  · rw [if_neg h1] at hfa
    by_cases h2 : (pinfo.validation && !validate_currency_context a code textU) = true
    · rw [if_pos h2] at hfa; cases hfa
    · rw [if_neg h2] at hfa
      rcases hfl : pyFloat (clean_amount_string (normalize_amount_text a detected.region) code)
        with _ | v
      · rw [hfl] at hfa; cases hfa
      · rw [hfl] at hfa
        simp only [] at hfa
        by_cases h3 : PyNum.qlt ⟨0, 1⟩ v = true
        · rw [if_pos h3] at hfa
          by_cases h4 : calculate_amount_score v textU
              (if primary then pinfo.priority + 5 else pinfo.priority) detected code primary < 50
          · rw [if_pos h4] at hfa; cases hfa
          · rw [if_neg h4] at hfa
            cases Option.some.inj hfa
            refine ⟨?_, rfl, rfl⟩
            show 50 ≤ calculate_amount_score v textU
              (if primary = true then pinfo.priority + 5 else pinfo.priority) detected code primary
            omega
        · rw [if_neg h3] at hfa; cases hfa

/-- Lifting `processMatches_mem` through a full per-currency pass. -/
theorem extract_with_currency_patterns_mem {textU code : Str} {detected : DetectedInfo}
    {primary : Bool} {c : Amount}
    (hc : c ∈ extract_with_currency_patterns textU code detected primary) :
    50 ≤ c.score ∧ c.currency = code ∧ c.isPrimaryCurrency = primary := by
  unfold extract_with_currency_patterns at hc
  rcases List.mem_flatMap.mp hc with ⟨p, -, hp⟩
  exact processMatches_mem hp

/-- A successful duplicate merge keeps only records that were already
accumulated or are the incoming candidate. -/
theorem mergeDup_mem : ∀ (acc : List Amount) (a : Amount) (acc' : List Amount),
    mergeDup acc a = some acc' → ∀ x ∈ acc', x ∈ acc ∨ x = a := by
  intro acc
  induction acc with
  | nil => intro a acc' h; cases h
  | cons e es ih =>
    intro a acc' h x hx
    unfold mergeDup at h
    by_cases hcond : (e.currency == a.currency &&
        PyNum.qle (PyNum.pabs (PyNum.psub a.value e.value))
          (PyNum.pmul (PyNum.pmax a.value e.value) ⟨2, 100⟩)) = true
    · rw [if_pos hcond] at h
      cases Option.some.inj h
      rcases List.mem_cons.mp hx with hhead | htail
      · by_cases hs : e.score < a.score
        · rw [if_pos hs] at hhead
          right; exact hhead
        · rw [if_neg hs] at hhead
          left; exact hhead ▸ List.mem_cons_self e es
      · left; exact List.mem_cons_of_mem e htail
    · rw [if_neg hcond] at h
      rcases hm : mergeDup es a with _ | es'
      · rw [hm] at h; cases h
      · rw [hm] at h
        cases Option.some.inj h
        rcases List.mem_cons.mp hx with h' | h'
        · left; exact h' ▸ List.mem_cons_self e es
        · rcases ih a es' hm x h' with h'' | h''
          · left; exact List.mem_cons_of_mem e h''
          · right; exact h''

/-- The deduplication fold only rearranges and replaces records from its
input. -/
theorem dedup_fold_mem : ∀ (l acc : List Amount) (x : Amount),
    x ∈ l.foldl
      (fun acc a =>
        match mergeDup acc a with
        | some acc' => acc'
        | none => acc ++ [a]) acc →
    x ∈ acc ∨ x ∈ l := by
  intro l
  induction l with
  | nil => intro acc x hx; exact Or.inl hx
  | cons a as ih =>
    intro acc x hx
    rw [List.foldl_cons] at hx
    rcases hm : mergeDup acc a with _ | acc'
    · rw [hm] at hx
      rcases ih (acc ++ [a]) x hx with h | h
      · rcases List.mem_append.mp h with h' | h'
        · exact Or.inl h'
        · right
          exact List.mem_cons.mpr (Or.inl (List.mem_singleton.mp h'))
      · right; exact List.mem_cons_of_mem a h
    · rw [hm] at hx
      rcases ih acc' x hx with h | h
      · rcases mergeDup_mem acc a acc' hm x h with h' | h'
        · exact Or.inl h'
        · right; exact List.mem_cons.mpr (Or.inl h')
      · right; exact List.mem_cons_of_mem a h

/-- `_remove_duplicate_amounts` never invents a record. -/
theorem remove_duplicate_amounts_mem {l : List Amount} {x : Amount}
    (hx : x ∈ remove_duplicate_amounts l) : x ∈ l := by
  unfold remove_duplicate_amounts at hx
  rcases dedup_fold_mem l [] x hx with h | h
  · cases h
  · exact h

/-- Insertion used by the stable sort preserves membership. -/
theorem insertByScoreDesc_mem : ∀ (l : List Amount) (y x : Amount),
    x ∈ insertByScoreDesc y l → x = y ∨ x ∈ l := by
  intro l
  induction l with
  | nil => intro y x hx; simpa [insertByScoreDesc] using hx
  | cons z zs ih =>
    intro y x hx
    unfold insertByScoreDesc at hx
    by_cases hs : y.score > z.score
    · rw [if_pos hs] at hx
      rcases List.mem_cons.mp hx with h | h
      · exact Or.inl h
      · exact Or.inr h
    · rw [if_neg hs] at hx
      rcases List.mem_cons.mp hx with h | h
      · exact Or.inr (h ▸ List.mem_cons_self z zs)
      · rcases ih y x h with h' | h'
        · exact Or.inl h'
        · exact Or.inr (List.mem_cons_of_mem z h')

/-- The stable sort only permutes its input. -/
theorem sortByScoreDesc_mem {l : List Amount} {x : Amount}
    (hx : x ∈ sortByScoreDesc l) : x ∈ l := by
  unfold sortByScoreDesc at hx
  suffices h : ∀ (l acc : List Amount) (x : Amount),
      x ∈ l.foldl (fun acc x => insertByScoreDesc x acc) acc → x ∈ acc ∨ x ∈ l by
    rcases h l [] x hx with h' | h'
    · cases h'
    · exact h'
  intro l
  induction l with
  | nil => intro acc x hx; exact Or.inl hx
  | cons a as ih =>
    intro acc x hx
    rw [List.foldl_cons] at hx
    rcases ih (insertByScoreDesc a acc) x hx with h | h
    · rcases insertByScoreDesc_mem acc a x h with h' | h'
      · exact Or.inr (List.mem_cons.mpr (Or.inl h'))
      · exact Or.inl h'
    · exact Or.inr (List.mem_cons_of_mem a h)

/-- Every record in the final candidate list comes from one of the
per-currency passes. -/
theorem extract_amount_candidates_mem {text : Str} {c : Amount}
    (hc : c ∈ extract_amount_candidates text) :
    c ∈ extract_with_currency_patterns (pyUpper text)
        (detect_document_currency_and_region text).currency
        (detect_document_currency_and_region text) true ∨
    ∃ code ∈ secondaryCurrencyList (detect_document_currency_and_region text).currency
        (extract_with_currency_patterns (pyUpper text)
          (detect_document_currency_and_region text).currency
          (detect_document_currency_and_region text) true),
      c ∈ extract_with_currency_patterns (pyUpper text) code
        (detect_document_currency_and_region text) false := by
  unfold extract_amount_candidates at hc
  have h1 := remove_duplicate_amounts_mem (sortByScoreDesc_mem hc)
  rcases List.mem_append.mp h1 with h | h
  · exact Or.inl h
  · rcases List.mem_flatMap.mp h with ⟨code, hcode, hmem⟩
    exact Or.inr ⟨code, hcode, hmem⟩

/-- C10: the amount-scoring function clamps at 0 (never negative), and
every candidate in the extractor's output list has a score of at least
50, because candidates scoring below 50 are dropped before being added
to the pool (and deduplication/sorting only keep existing records). -/
theorem amount_score_clamped_and_filtered :
    (∀ (v : PyNum) (t : Str) (p : Int) (d : DetectedInfo) (code : Str) (b : Bool),
      0 ≤ calculate_amount_score v t p d code b) ∧
    (∀ (text : Str) (c : Amount), c ∈ extract_amount_candidates text → 50 ≤ c.score) := by
  constructor
  · intro v t p d code b
    unfold calculate_amount_score
    exact le_max_right _ _
  · intro text c hc
    rcases extract_amount_candidates_mem hc with h | ⟨code, -, h⟩
    · exact (extract_with_currency_patterns_mem h).1
    · exact (extract_with_currency_patterns_mem h).1

/-- C10 witness: the scoring clamp at concrete arguments, and the
concrete top candidate extracted from "TOTAL: $1,234.56" (score 1800). -/
theorem amount_score_clamped_and_filtered_witness :
    0 ≤ calculate_amount_score ⟨123456, 100⟩ (pyUpper (S "TOTAL: $1,234.56")) 10
      ⟨S "US", S "USD", 0, 1⟩ (S "USD") true ∧
    50 ≤ ({ value := ⟨123456, 100⟩, formatted := S "$1234.56", currency := S "USD",
            score := 1800, patternUsed := S "USD Total", priority := 10, region := S "US",
            isPrimaryCurrency := true, originalText := S "1,234.56" } : Amount).score :=
  ⟨amount_score_clamped_and_filtered.1 ⟨123456, 100⟩ (pyUpper (S "TOTAL: $1,234.56")) 10
      ⟨S "US", S "USD", 0, 1⟩ (S "USD") true,
   amount_score_clamped_and_filtered.2 (S "TOTAL: $1,234.56")
     { value := ⟨123456, 100⟩, formatted := S "$1234.56", currency := S "USD",
       score := 1800, patternUsed := S "USD Total", priority := 10, region := S "US",
       isPrimaryCurrency := true, originalText := S "1,234.56" } (by decide)⟩

/-- C6 counterexample: deduplication is greedy in list order, so a pair
of same-currency candidates within 2% can both survive. Values 100
(score 10), 102.5 (score 5), 100.6 (score 20): 102.5 is not within 2% of
100 and stays; 100.6 then replaces the 100-entry (higher score); the
output retains 100.6 and 102.5, which are within 2% of each other and of
the same currency, yet were not collapsed into a single candidate. -/
theorem dedup_two_percent_counterexample :
    remove_duplicate_amounts
      [ { value := ⟨100, 1⟩, formatted := [], currency := S "USD", score := 10,
          patternUsed := [], priority := 0, region := [], isPrimaryCurrency := true,
          originalText := [] },
        { value := ⟨1025, 10⟩, formatted := [], currency := S "USD", score := 5,
          patternUsed := [], priority := 0, region := [], isPrimaryCurrency := true,
          originalText := [] },
        { value := ⟨1006, 10⟩, formatted := [], currency := S "USD", score := 20,
          patternUsed := [], priority := 0, region := [], isPrimaryCurrency := true,
          originalText := [] } ] =
      [ { value := ⟨1006, 10⟩, formatted := [], currency := S "USD", score := 20,
          patternUsed := [], priority := 0, region := [], isPrimaryCurrency := true,
          originalText := [] },
        { value := ⟨1025, 10⟩, formatted := [], currency := S "USD", score := 5,
          patternUsed := [], priority := 0, region := [], isPrimaryCurrency := true,
          originalText := [] } ] ∧
    PyNum.qle (PyNum.pabs (PyNum.psub (⟨1006, 10⟩ : PyNum) ⟨1025, 10⟩))
      (PyNum.pmul (PyNum.pmax ⟨1006, 10⟩ ⟨1025, 10⟩) ⟨2, 100⟩) = true := by
  decide

/-- C6 (amended): deduplication is greedy in insertion order — each
candidate merges with the first earlier-surviving candidate of the same
currency within 2% relative value, keeping the record with the higher
score; in particular a pair processed in isolation always collapses to a
single candidate carrying the higher of the two scores (pairs can fail
to collapse only when a third candidate drags a surviving entry's value
away first, as the counterexample shows). -/
theorem dedup_two_percent_pair (x y : Amount)
    (hcur : (x.currency == y.currency) = true)
    (hclose : PyNum.qle (PyNum.pabs (PyNum.psub y.value x.value))
      (PyNum.pmul (PyNum.pmax y.value x.value) ⟨2, 100⟩) = true) :
    remove_duplicate_amounts [x, y] = [if x.score < y.score then y else x] ∧
    ∀ z ∈ remove_duplicate_amounts [x, y], z.score = max x.score y.score := by
  have h1 : remove_duplicate_amounts [x, y] = [if x.score < y.score then y else x] := by
    unfold remove_duplicate_amounts
    simp only [List.foldl_cons, List.foldl_nil]
    have hm1 : mergeDup [] x = none := rfl
    rw [hm1]
    have hm2 : mergeDup ([] ++ [x]) y = some [if x.score < y.score then y else x] := by
      show mergeDup [x] y = _
      unfold mergeDup
      rw [if_pos (by simp [hcur, hclose])]
    rw [hm2]
  refine ⟨h1, ?_⟩
  intro z hz
  rw [h1] at hz
  rcases List.mem_singleton.mp hz with rfl
  by_cases hs : x.score < y.score
  · rw [if_pos hs]
    omega
  · rw [if_neg hs]
    omega

/-- C6 witness for the pair law (values 100 and 101, scores 10 and 99:
the survivor is the 101 record with score 99 = max). -/
theorem dedup_two_percent_pair_witness :
    remove_duplicate_amounts
      [ { value := ⟨100, 1⟩, formatted := [], currency := S "USD", score := 10,
          patternUsed := [], priority := 0, region := [], isPrimaryCurrency := true,
          originalText := [] },
        { value := ⟨101, 1⟩, formatted := [], currency := S "USD", score := 99,
          patternUsed := [], priority := 0, region := [], isPrimaryCurrency := true,
          originalText := [] } ] =
      [if (10 : Int) < 99 then
          { value := ⟨101, 1⟩, formatted := [], currency := S "USD", score := 99,
            patternUsed := [], priority := 0, region := [], isPrimaryCurrency := true,
            originalText := [] }
        else
          { value := ⟨100, 1⟩, formatted := [], currency := S "USD", score := 10,
            patternUsed := [], priority := 0, region := [], isPrimaryCurrency := true,
            originalText := [] }] :=
  (dedup_two_percent_pair _ _ (by decide) (by decide)).1

/-- C5 counterexample: on "TOTAL: 1,234.56" the primary (USD) search is
strong (best primary score 1800 ≥ 1000), yet the output contains a ZAR
candidate — ZAR is neither the primary currency nor in the small
secondary set {USD, EUR, GBP, CAD}. In the source, a strong primary
result triggers the `else` branch that searches every configured
currency ("Original behavior"), the opposite of the claim. -/
theorem secondary_search_counterexample :
    (detect_document_currency_and_region (S "TOTAL: 1,234.56")).currency = S "USD" ∧
    1000 ≤ maxScoreOf (extract_with_currency_patterns (pyUpper (S "TOTAL: 1,234.56")) (S "USD")
        (detect_document_currency_and_region (S "TOTAL: 1,234.56")) true) ∧
    (extract_amount_candidates (S "TOTAL: 1,234.56")).any
      (fun c => c.currency == S "ZAR") = true ∧
    ¬ S "ZAR" ∈ commonSecondary ∧ S "ZAR" ≠ S "USD" := by
  refine ⟨by decide, by decide, by decide, by decide, by decide⟩

/-- C5 (amended): amount extraction always runs the primary (detected)
currency's patterns first; when the primary pass is weak (no candidate,
or no candidate scoring at least 1000) only the small secondary set
USD/EUR/GBP/CAD is additionally searched, so every output candidate is
then in the primary currency or that set; but when a sufficiently
high-scoring primary candidate exists, the patterns of every other
configured currency are run. -/
theorem secondary_search_policy (text : Str) :
    ((extract_with_currency_patterns (pyUpper text)
        (detect_document_currency_and_region text).currency
        (detect_document_currency_and_region text) true).isEmpty = true ∨
      maxScoreOf (extract_with_currency_patterns (pyUpper text)
        (detect_document_currency_and_region text).currency
        (detect_document_currency_and_region text) true) < 1000 →
      ∀ c ∈ extract_amount_candidates text,
        c.currency = (detect_document_currency_and_region text).currency ∨
        c.currency ∈ commonSecondary) ∧
    (¬((extract_with_currency_patterns (pyUpper text)
        (detect_document_currency_and_region text).currency
        (detect_document_currency_and_region text) true).isEmpty = true ∨
      maxScoreOf (extract_with_currency_patterns (pyUpper text)
        (detect_document_currency_and_region text).currency
        (detect_document_currency_and_region text) true) < 1000) →
      extract_amount_candidates text =
        sortByScoreDesc (remove_duplicate_amounts
          (extract_with_currency_patterns (pyUpper text)
              (detect_document_currency_and_region text).currency
              (detect_document_currency_and_region text) true ++
            ((CURRENCY_CONFIG.map Prod.fst).filter
                (fun k => !(k == (detect_document_currency_and_region text).currency))).flatMap
              (fun code => extract_with_currency_patterns (pyUpper text) code
                (detect_document_currency_and_region text) false)))) := by
  constructor
  · intro hweak c hc
    have hcond : ((extract_with_currency_patterns (pyUpper text)
        (detect_document_currency_and_region text).currency
        (detect_document_currency_and_region text) true).isEmpty ||
        decide (maxScoreOf (extract_with_currency_patterns (pyUpper text)
          (detect_document_currency_and_region text).currency
          (detect_document_currency_and_region text) true) < 1000)) = true := by
      rcases hweak with h | h
      · simp [h]
      · simp [h]
    rcases extract_amount_candidates_mem hc with h | ⟨code, hcode, h⟩
    · exact Or.inl (extract_with_currency_patterns_mem h).2.1
    · right
      have hcur := (extract_with_currency_patterns_mem h).2.1
      unfold secondaryCurrencyList at hcode
      rw [if_pos hcond] at hcode
      have hmem := (List.mem_filter.mp hcode).1
      rw [hcur]
      by_cases hin : commonSecondary.contains (detect_document_currency_and_region text).currency
      · rw [if_pos hin] at hmem
        cases hmem
      · rw [if_neg hin] at hmem
        exact hmem
  · intro hstrong
    have hcond : ((extract_with_currency_patterns (pyUpper text)
        (detect_document_currency_and_region text).currency
        (detect_document_currency_and_region text) true).isEmpty ||
        decide (maxScoreOf (extract_with_currency_patterns (pyUpper text)
          (detect_document_currency_and_region text).currency
          (detect_document_currency_and_region text) true) < 1000)) = false := by
      rcases h1 : (extract_with_currency_patterns (pyUpper text)
          (detect_document_currency_and_region text).currency
          (detect_document_currency_and_region text) true).isEmpty
      · rcases h2 : decide (maxScoreOf (extract_with_currency_patterns (pyUpper text)
            (detect_document_currency_and_region text).currency
            (detect_document_currency_and_region text) true) < 1000)
        · rfl
        · exact absurd (Or.inr (of_decide_eq_true h2)) hstrong
      · exact absurd (Or.inl h1) hstrong
    simp only [extract_amount_candidates, secondaryCurrencyList, hcond]
    rfl

/-- C5 witness for the weak case: on "$99999999.99" the primary (USD)
pass scores only 750, and the single output candidate is in the primary
currency. -/
theorem secondary_search_policy_witness :
    ({ value := ⟨9999999999, 100⟩, formatted := S "$99999999.99", currency := S "USD",
       score := 750, patternUsed := S "USD Symbol Amount", priority := 9, region := S "US",
       isPrimaryCurrency := true, originalText := S "99999999.99" } : Amount).currency =
      (detect_document_currency_and_region (S "$99999999.99")).currency ∨
    ({ value := ⟨9999999999, 100⟩, formatted := S "$99999999.99", currency := S "USD",
       score := 750, patternUsed := S "USD Symbol Amount", priority := 9, region := S "US",
       isPrimaryCurrency := true, originalText := S "99999999.99" } : Amount).currency ∈
      commonSecondary :=
  (secondary_search_policy (S "$99999999.99")).1 (Or.inr (by decide)) _ (by decide)

/-- The second component of the best-score fold over any table, from any
accumulator, is the running maximum of the per-entry indicator counts. -/
theorem foldBest_snd (textU : Str) (tbl : List (Str × List Str)) :
    ∀ acc : Str × Nat,
      (tbl.foldl
        (fun acc entry =>
          let sc := indicatorScore textU entry.2
          if sc > acc.2 then (entry.1, sc) else acc) acc).2 =
      (tbl.map (fun e => indicatorScore textU e.2)).foldl max acc.2 := by
  induction tbl with
  | nil => intro acc; rfl
  | cons e es ih =>
    intro acc
    simp only [List.foldl_cons, List.map_cons]
    rw [ih]
    have h2 : (let sc := indicatorScore textU e.2
        if sc > acc.2 then (e.1, sc) else acc).2 = max acc.2 (indicatorScore textU e.2) := by
      simp only []
      by_cases h : indicatorScore textU e.2 > acc.2
      · rw [if_pos h]; omega
      · rw [if_neg h]; omega
    rw [h2]

/-- `bestScoreFold` ends at the maximum indicator count of the table. -/
theorem bestScoreFold_snd (textU init : Str) (tbl : List (Str × List Str)) :
    (bestScoreFold textU init tbl).2 =
      (tbl.map (fun e => indicatorScore textU e.2)).foldl max 0 :=
  foldBest_snd textU tbl (init, 0)

/-- C7 counterexample: on the text "USA UNITED STATES ZIP CODE STATE LLC
INC CORP", the detector consumed by the extraction pipeline returns a
region confidence of 7 — outside [0,1] and not any score/50 value capped
at 1. The score/50 formula lives in `region_detector.py`, which this
pipeline never calls; `currency_detector.py` returns raw indicator
counts. -/
theorem detection_confidence_counterexample :
    (detect_document_currency_and_region
        (S "USA UNITED STATES ZIP CODE STATE LLC INC CORP")).regionConfidence = 7 ∧
    1 < (detect_document_currency_and_region
        (S "USA UNITED STATES ZIP CODE STATE LLC INC CORP")).regionConfidence := by
  refine ⟨by decide, by decide⟩

/-- C7 (amended): the locale detection consumed by the amount and vendor
extractors returns RAW matched-indicator counts, not normalized
confidences: the region confidence is the maximum, over the region
table, of the number of indicator substrings found in the upper-cased
text; the currency confidence is the corresponding maximum over the
currency table, except that when that maximum is 0 the region confidence
is copied into it. No division by 50 and no capping at 1.0 occurs. -/
theorem detection_confidences_are_raw_counts (text : Str) :
    (detect_document_currency_and_region text).regionConfidence =
      (regionIndicators.map (fun e => indicatorScore (pyUpper text) e.2)).foldl max 0 ∧
    (detect_document_currency_and_region text).currencyConfidence =
      (if (currencyIndicators.map (fun e => indicatorScore (pyUpper text) e.2)).foldl max 0 = 0
        then (regionIndicators.map (fun e => indicatorScore (pyUpper text) e.2)).foldl max 0
        else (currencyIndicators.map (fun e => indicatorScore (pyUpper text) e.2)).foldl max 0) := by
  rcases hb : bestScoreFold (pyUpper text) (S "US") regionIndicators with ⟨r, rc⟩
  have hrc : rc = (regionIndicators.map (fun e => indicatorScore (pyUpper text) e.2)).foldl max 0 := by
    have := bestScoreFold_snd (pyUpper text) (S "US") regionIndicators
    rw [hb] at this
    exact this
  rcases hc : bestScoreFold (pyUpper text)
      ((lookupStr REGION_CURRENCY_MAP r).getD (S "USD")) currencyIndicators with ⟨cu, cc⟩
  have hcc : cc = (currencyIndicators.map (fun e => indicatorScore (pyUpper text) e.2)).foldl max 0 := by
    have := bestScoreFold_snd (pyUpper text)
      ((lookupStr REGION_CURRENCY_MAP r).getD (S "USD")) currencyIndicators
    rw [hc] at this
    exact this
  simp only [detect_document_currency_and_region]
  rw [hb, hc]
  simp only []
  by_cases h0 : (cc == 0) = true
  · have h0n : cc = 0 := by
      have := of_decide_eq_true h0
      exact this
    rw [if_pos h0]
    rw [if_pos (by rw [← hcc]; exact h0n)]
    exact ⟨hrc, hrc⟩
  · have h0n : ¬ cc = 0 := by
      intro hh
      exact h0 (by rw [hh]; rfl)
    rw [if_neg h0]
    refine ⟨hrc, ?_⟩
    show cc = _
    rw [if_neg (show ¬ (currencyIndicators.map
        (fun e => indicatorScore (pyUpper text) e.2)).foldl max 0 = 0 by
      rw [← hcc]; exact h0n)]
    exact hcc

/-! ### String-primitive lemmas for the normalization law (C3) -/

/-- Characters of a matched prefix occur in the string. -/
theorem startsWith_subset : ∀ {s p : Str}, startsWithStr s p = true → ∀ c ∈ p, c ∈ s := by
  intro s
  induction s with
  | nil =>
    intro p h c hc
    cases p with
    | nil => cases hc
    | cons d ds => exact Bool.noConfusion h
  | cons x xs ih =>
    intro p h c hc
    cases p with
    | nil => cases hc
    | cons d ds =>
      unfold startsWithStr at h
      rw [Bool.and_eq_true] at h
      rcases h with ⟨h1, h2⟩
      rcases List.mem_cons.mp hc with hcd | hcds
      · rw [hcd, ← eq_of_beq h1]
        exact List.mem_cons_self x xs
      · exact List.mem_cons_of_mem x (ih h2 c hcds)

/-- Characters of a contained substring occur in the string. -/
theorem containsSub_subset : ∀ {hay needle : Str},
    containsSub hay needle = true → ∀ c ∈ needle, c ∈ hay := by
  intro hay
  induction hay with
  | nil =>
    intro needle h c hc
    unfold containsSub at h
    rw [Bool.or_eq_true] at h
    rcases h with h1 | h1
    · exact absurd hc (by cases needle with
        | nil => exact List.not_mem_nil c
        | cons d ds => exact Bool.noConfusion h1)
    · exact Bool.noConfusion h1
  | cons x xs ih =>
    intro needle h c hc
    unfold containsSub at h
    rw [Bool.or_eq_true] at h
    rcases h with h1 | h1
    · exact startsWith_subset h1 c hc
    · exact List.mem_cons_of_mem x (ih h1 c hc)

/-- A needle with a character missing from the haystack is not contained. -/
theorem containsSub_false_of_missing {hay needle : Str} {c : Char}
    (hc : c ∈ needle) (hm : ¬ c ∈ hay) : containsSub hay needle = false := by
  cases h : containsSub hay needle
  · rfl
  · exact absurd (containsSub_subset h c hc) hm

/-- A single-character needle that occurs is contained. -/
theorem containsSub_single_of_mem {s : Str} {c : Char} (h : c ∈ s) :
    containsSub s [c] = true := by
  induction s with
  | nil => cases h
  | cons x xs ih =>
    show (startsWithStr (x :: xs) [c] || containsSub xs [c]) = true
    rcases List.mem_cons.mp h with h1 | h1
    · have hsw : startsWithStr (x :: xs) [c] = true := by
        show ((x == c) && startsWithStr xs []) = true
        rw [h1]
        cases xs <;> simp [startsWithStr]
      rw [hsw]
      rfl
    · rw [ih h1, Bool.or_true]

/-- `replace` is the identity when the probe does not occur. -/
theorem replaceSubGo_id {old new : Str} : ∀ (s : Str) (f : Nat), s.length ≤ f →
    containsSub s old = false → replaceSubGo f s old new = s := by
  intro s
  induction s with
  | nil =>
    intro f _ _
    cases f with
    | zero => rfl
    | succ g => rfl
  | cons x xs ih =>
    intro f hf h
    unfold containsSub at h
    rcases Bool.or_eq_false_iff.mp h with ⟨h1, h2⟩
    cases f with
    | zero => exact absurd hf (by simp)
    | succ g =>
      unfold replaceSubGo
      rw [if_neg (by
        intro hcon
        rw [h1] at hcon
        exact absurd hcon.2 (by simp))]
      rw [ih g (by simpa using hf) h2]

/-- `s.replace(old, new) = s` when `old` does not occur in `s`. -/
theorem replaceSub_id {s old new : Str} (h : containsSub s old = false) :
    replaceSub s old new = s :=
  replaceSubGo_id s s.length (Nat.le_refl _) h

/-- Replacing a single character by the empty string is a filter. -/
theorem replaceSubGo_del {k : Char} : ∀ (s : Str) (f : Nat), s.length ≤ f →
    replaceSubGo f s [k] [] = s.filter (fun c => !(c == k)) := by
  intro s
  induction s with
  | nil =>
    intro f _
    cases f with
    | zero => rfl
    | succ g => rfl
  | cons x xs ih =>
    intro f hf
    cases f with
    | zero => exact absurd hf (by simp)
    | succ g =>
      unfold replaceSubGo
      by_cases hx : (x == k) = true
      · rw [if_pos (by
          refine ⟨by simp, ?_⟩
          show ((x == k) && startsWithStr xs []) = true
          rw [hx]
          cases xs <;> simp [startsWithStr])]
        have hdrop : List.drop (([k] : Str).length - 1) xs = xs := by simp
        rw [hdrop, List.nil_append]
        rw [ih g (by simpa using hf)]
        simp [List.filter_cons, hx]
      · rw [if_neg (by
          intro hcon
          apply hx
          have h2 := hcon.2
          have h3 : ((x == k) && startsWithStr xs []) = true := h2
          rw [Bool.and_eq_true] at h3
          exact h3.1)]
        rw [ih g (by simpa using hf)]
        simp [List.filter_cons, hx]

/-- `s.replace(k, "")` deletes every occurrence of the character `k`. -/
theorem replaceSub_del {s : Str} {k : Char} :
    replaceSub s [k] [] = s.filter (fun c => !(c == k)) :=
  replaceSubGo_del s s.length (Nat.le_refl _)

/-- `dropWhile` is the identity when no element satisfies the predicate. -/
theorem dropWhile_id {p : Char → Bool} {l : Str} (h : ∀ c ∈ l, p c = false) :
    l.dropWhile p = l := by
  cases l with
  | nil => rfl
  | cons x xs =>
    rw [List.dropWhile_cons, h x (List.mem_cons_self x xs)]
    simp

/-- `strip` is the identity on whitespace-free strings. -/
theorem pyStrip_id {s : Str} (h : ∀ c ∈ s, isSpaceC c = false) : pyStrip s = s := by
  unfold pyStrip
  rw [dropWhile_id h, dropWhile_id (by
    intro c hc
    exact h c (List.mem_reverse.mp hc)), List.reverse_reverse]

/-- A digit is not whitespace. -/
theorem isSpaceC_false_of_digit {c : Char} (h : isDigitC c = true) : isSpaceC c = false := by
  cases hsp : isSpaceC c
  · rfl
  · exfalso
    unfold isSpaceC at hsp
    simp only [Bool.or_eq_true, decide_eq_true_eq] at hsp
    rcases hsp with ((((h1 | h1) | h1) | h1) | h1) | h1 <;>
      (rw [h1] at h; exact absurd h (by decide))

/-- Counting a character distributes over append. -/
theorem countC_append (k : Char) (u v : Str) :
    countC k (u ++ v) = countC k u + countC k v := by
  unfold countC
  rw [List.filter_append, List.length_append]

/-- A string without the character has count zero. -/
theorem countC_zero {k : Char} {s : Str} (h : ∀ c ∈ s, (c == k) = false) :
    countC k s = 0 := by
  unfold countC
  rw [List.filter_eq_nil_iff.mpr (by intro a ha; rw [h a ha]; simp)]
  rfl

/-- Unfolding equation of `splitOnChar` on a cons cell. -/
theorem splitOnChar_cons (k x : Char) (xs : Str) :
    splitOnChar k (x :: xs) =
      if x == k then [] :: splitOnChar k xs
      else
        match splitOnChar k xs with
        | [] => [[x]]
        | h :: t => (x :: h) :: t := rfl

/-- Splitting a separator-free string yields a single piece. -/
theorem splitOnChar_no_sep {k : Char} : ∀ {s : Str}, (∀ c ∈ s, (c == k) = false) →
    splitOnChar k s = [s] := by
  intro s
  induction s with
  | nil => intro _; rfl
  | cons x xs ih =>
    intro h
    rw [splitOnChar_cons, h x (List.mem_cons_self x xs)]
    rw [ih (fun c hc => h c (List.mem_cons_of_mem x hc))]
    rfl

/-- Splitting at the first separator peels off the separator-free head. -/
theorem splitOnChar_append_sep {k : Char} {v : Str} : ∀ {u : Str},
    (∀ c ∈ u, (c == k) = false) →
    splitOnChar k (u ++ k :: v) = u :: splitOnChar k v := by
  intro u
  induction u with
  | nil =>
    intro _
    show splitOnChar k (k :: v) = [] :: splitOnChar k v
    rw [splitOnChar_cons, if_pos (by simp)]
  | cons x xs ih =>
    intro h
    show splitOnChar k (x :: (xs ++ k :: v)) = (x :: xs) :: splitOnChar k v
    rw [splitOnChar_cons, h x (List.mem_cons_self x xs)]
    rw [ih (fun c hc => h c (List.mem_cons_of_mem x hc))]
    rfl

/-- The number of split pieces is the separator count plus one. -/
theorem splitOnChar_length (k : Char) : ∀ (s : Str),
    (splitOnChar k s).length = countC k s + 1 := by
  intro s
  induction s with
  | nil => rfl
  | cons x xs ih =>
    by_cases hx : (x == k) = true
    · have h1 : splitOnChar k (x :: xs) = [] :: splitOnChar k xs := by
        rw [splitOnChar_cons, if_pos hx]
      have h2 : countC k (x :: xs) = countC k xs + 1 := by
        unfold countC
        rw [List.filter_cons, if_pos (by simp [hx])]
        simp
      rw [h1, h2, List.length_cons, ih]
    · have h2 : countC k (x :: xs) = countC k xs := by
        unfold countC
        rw [List.filter_cons, if_neg (by simp [hx])]
      rcases hsp : splitOnChar k xs with _ | ⟨h0, t0⟩
      · have hih := ih
        rw [hsp] at hih
        simp at hih
      · have h1 : splitOnChar k (x :: xs) = (x :: h0) :: t0 := by
          rw [splitOnChar_cons, if_neg hx, hsp]
        have hih := ih
        rw [hsp] at hih
        rw [h1, h2]
        simp only [List.length_cons] at hih ⊢
        omega

/-- `rfind` returns `-1` or an index within the scanned range. -/
theorem rfindAux_range (k : Char) : ∀ (s : Str) (i : Nat),
    rfindAux k s i = -1 ∨
      (0 ≤ rfindAux k s i ∧ rfindAux k s i < (i : Int) + s.length) := by
  intro s
  induction s with
  | nil => intro i; left; rfl
  | cons x xs ih =>
    intro i
    unfold rfindAux
    simp only []
    rcases ih (i + 1) with h | h
    · rw [h]
      rw [if_neg (by simp)]
      by_cases hx : (x == k) = true
      · rw [if_pos hx]
        right
        constructor
        · exact Int.ofNat_nonneg i
        · simp only [List.length_cons]
          push_cast
          omega
      · rw [if_neg hx]
        left
        rfl
    · rw [if_pos h.1]
      right
      refine ⟨h.1, ?_⟩
      have := h.2
      simp only [List.length_cons]
      push_cast at this ⊢
      omega

/-- `rfind` on a string without the character is `-1`. -/
theorem rfindAux_not_mem {k : Char} : ∀ {s : Str}, (∀ c ∈ s, (c == k) = false) →
    ∀ (i : Nat), rfindAux k s i = -1 := by
  intro s
  induction s with
  | nil => intro _ i; rfl
  | cons x xs ih =>
    intro h i
    unfold rfindAux
    simp only []
    rw [ih (fun c hc => h c (List.mem_cons_of_mem x hc)) (i + 1)]
    rw [if_neg (by simp)]
    rw [h x (List.mem_cons_self x xs)]
    simp

/-- `rfind` over an append scans the right part first. -/
theorem rfindAux_append (k : Char) (y : Str) : ∀ (x : Str) (i : Nat),
    rfindAux k (x ++ y) i =
      if rfindAux k y (i + x.length) ≥ 0 then rfindAux k y (i + x.length)
      else rfindAux k x i := by
  intro x
  induction x with
  | nil =>
    intro i
    simp only [List.nil_append, List.length_nil, Nat.add_zero]
    rcases rfindAux_range k y i with h | h
    · rw [h, if_neg (by simp)]
      rfl
    · rw [if_pos h.1]
  | cons d ds ih =>
    intro i
    have hneg1 : ¬ ((-1 : Int) ≥ 0) := by norm_num
    have hstep : rfindAux k ((d :: ds) ++ y) i =
        (if rfindAux k (ds ++ y) (i + 1) ≥ 0 then rfindAux k (ds ++ y) (i + 1)
         else if d == k then (i : Int) else -1) := rfl
    have hstep2 : rfindAux k (d :: ds) i =
        (if rfindAux k ds (i + 1) ≥ 0 then rfindAux k ds (i + 1)
         else if d == k then (i : Int) else -1) := rfl
    have harith : i + 1 + ds.length = i + (d :: ds).length := by
      simp only [List.length_cons]
      omega
    rw [hstep, hstep2, ih (i + 1), harith]
    rcases rfindAux_range k y (i + (d :: ds).length) with hy | hy
    · rw [hy, if_neg hneg1, if_neg hneg1]
    · rw [if_pos hy.1, if_pos hy.1, if_pos hy.1]

/-- Digits and the two separators are not whitespace. -/
theorem isSpaceC_false_of_class {c : Char}
    (h : (isDigitC c || c == '.' || c == ',') = true) : isSpaceC c = false := by
  rw [Bool.or_eq_true, Bool.or_eq_true] at h
  rcases h with (hdig | hdot) | hcom
  · exact isSpaceC_false_of_digit hdig
  · rw [eq_of_beq hdot]; decide
  · rw [eq_of_beq hcom]; decide

/-- A digit is not a comma. -/
theorem digit_beq_comma_false {c : Char} (h : isDigitC c = true) : (c == ',') = false := by
  cases hb : (c == ',')
  · rfl
  · rw [eq_of_beq hb] at h
    exact absurd h (by decide)

/-- A digit is not a dot. -/
theorem digit_beq_dot_false {c : Char} (h : isDigitC c = true) : (c == '.') = false := by
  cases hb : (c == '.')
  · rfl
  · rw [eq_of_beq hb] at h
    exact absurd h (by decide)

/-- Every character of a shaped numeral is a digit or a separator. -/
theorem numShape_chars {a : Str} {gs : List Str} {d : Option Str}
    (had : a.all isDigitC = true)
    (hgs : ∀ g ∈ gs, g.all isDigitC = true)
    (hd : ∀ d0, d = some d0 → d0.all isDigitC = true) :
    ∀ c ∈ numShape a gs d, (isDigitC c || c == '.' || c == ',') = true := by
  intro c hc
  unfold numShape at hc
  rw [List.append_assoc, List.mem_append] at hc
  rcases hc with hc | hc
  · have := List.all_eq_true.mp had c hc
    rw [this]
    simp
  · rw [List.mem_append] at hc
    rcases hc with hc | hc
    · rcases List.mem_flatMap.mp hc with ⟨g, hg, hcg⟩
      rcases List.mem_cons.mp hcg with hcc | hcg2
      · rw [hcc]
        simp
      · have := List.all_eq_true.mp (hgs g hg) c hcg2
        rw [this]
        simp
    · cases d with
      | none => cases hc
      | some d0 =>
        rcases List.mem_cons.mp hc with hcc | hcd
        · rw [hcc]
          simp
        · have := List.all_eq_true.mp (hd d0 rfl) c hcd
          rw [this]
          simp

/-- A shaped numeral with no decimal part contains no dot. -/
theorem numShape_no_dot {a : Str} {gs : List Str}
    (had : a.all isDigitC = true)
    (hgs : ∀ g ∈ gs, g.all isDigitC = true) :
    ¬ '.' ∈ numShape a gs none := by
  intro hc
  unfold numShape at hc
  rw [List.append_assoc, List.mem_append] at hc
  rcases hc with hc | hc
  · exact absurd (List.all_eq_true.mp had _ hc) (by decide)
  · rw [List.mem_append] at hc
    rcases hc with hc | hc
    · rcases List.mem_flatMap.mp hc with ⟨g, hg, hcg⟩
      rcases List.mem_cons.mp hcg with hcc | hcg2
      · exact absurd hcc (by decide)
      · exact absurd (List.all_eq_true.mp (hgs g hg) _ hcg2) (by decide)
    · cases hc

/-- A shaped numeral with no comma groups contains no comma. -/
theorem numShape_no_comma {a : Str} {d : Option Str}
    (had : a.all isDigitC = true)
    (hd : ∀ d0, d = some d0 → d0.all isDigitC = true) :
    ¬ ',' ∈ numShape a [] d := by
  intro hc
  unfold numShape at hc
  rw [List.mem_append] at hc
  rcases hc with hc | hc
  · rw [List.mem_append] at hc
    rcases hc with hc | hc
    · exact absurd (List.all_eq_true.mp had _ hc) (by decide)
    · cases hc
  · cases d with
    | none => cases hc
    | some d0 =>
      rcases List.mem_cons.mp hc with hcc | hcd
      · exact absurd hcc (by decide)
      · exact absurd (List.all_eq_true.mp (hd d0 rfl) _ hcd) (by decide)

/-- A shaped numeral with at least one group contains a comma. -/
theorem numShape_comma_mem (a : Str) {gs : List Str} (d : Option Str) {g : Str}
    (hg : g ∈ gs) : ',' ∈ numShape a gs d := by
  unfold numShape
  rw [List.append_assoc, List.mem_append]
  right
  rw [List.mem_append]
  left
  exact List.mem_flatMap.mpr ⟨g, hg, List.mem_cons_self ',' g⟩

/-- A shaped numeral with a decimal part contains a dot. -/
theorem numShape_dot_mem (a : Str) (gs : List Str) (d0 : Str) :
    '.' ∈ numShape a gs (some d0) := by
  unfold numShape
  rw [List.append_assoc, List.mem_append]
  right
  rw [List.mem_append]
  right
  exact List.mem_cons_self '.' d0

/-- Comma count of the flattened groups. -/
theorem countC_groups : ∀ (gs : List Str), (∀ g ∈ gs, g.all isDigitC = true) →
    countC ',' (gs.flatMap (fun g => ',' :: g)) = gs.length := by
  intro gs
  induction gs with
  | nil => intro _; rfl
  | cons g rest ih =>
    intro h
    rw [List.flatMap_cons]
    rw [show (',' :: g) ++ rest.flatMap (fun g => ',' :: g) =
      ',' :: (g ++ rest.flatMap (fun g => ',' :: g)) from rfl]
    have h1 : countC ',' (',' :: (g ++ rest.flatMap (fun g => ',' :: g))) =
        countC ',' (g ++ rest.flatMap (fun g => ',' :: g)) + 1 := by
      unfold countC
      rw [List.filter_cons, if_pos (by simp)]
      simp
    rw [h1, countC_append,
      countC_zero (fun c hc => digit_beq_comma_false (List.all_eq_true.mp (h g (List.mem_cons_self g rest)) c hc)),
      ih (fun g2 hg2 => h g2 (List.mem_cons_of_mem g hg2))]
    simp [List.length_cons]

/-- Comma count of a shaped numeral is the number of groups. -/
theorem numShape_comma_count {a : Str} {gs : List Str} {d : Option Str}
    (had : a.all isDigitC = true)
    (hgs : ∀ g ∈ gs, g.all isDigitC = true)
    (hd : ∀ d0, d = some d0 → d0.all isDigitC = true) :
    countC ',' (numShape a gs d) = gs.length := by
  have hz : countC ',' a = 0 :=
    countC_zero (fun c hc => digit_beq_comma_false (List.all_eq_true.mp had c hc))
  cases d with
  | none =>
    unfold numShape
    rw [List.append_assoc, countC_append, countC_append, hz, countC_groups gs hgs]
    show 0 + (gs.length + countC ',' ([] : Str)) = gs.length
    simp [countC]
  | some d0 =>
    unfold numShape
    rw [List.append_assoc, countC_append, countC_append, hz, countC_groups gs hgs]
    have h3 : countC ',' ('.' :: d0) = 0 := by
      unfold countC
      rw [List.filter_cons, if_neg (by simp)]
      exact countC_zero (fun c hc =>
        digit_beq_comma_false (List.all_eq_true.mp (hd d0 rfl) c hc))
    show 0 + (gs.length + countC ',' ('.' :: d0)) = gs.length
    rw [h3]
    omega

/-- `get_currency_info` always returns a configured record or the USD
default. -/
theorem get_currency_info_mem (code : Str) :
    get_currency_info code ∈ CURRENCY_CONFIG.map Prod.snd ∨
    get_currency_info code = ⟨S "$", S "USD", S "US Dollar", 2⟩ := by
  unfold get_currency_info lookupStr
  rcases hf : CURRENCY_CONFIG.find? (fun p => p.1 == pyUpper code) with _ | p
  · right
    rw [hf]
    rfl
  · left
    rw [hf]
    exact List.mem_map_of_mem Prod.snd (List.mem_of_find?_eq_some hf)

/-- On a digits-and-separators string that does not hold both separators
and whose comma count is not one, `_clean_amount_string` with a
configured currency code deletes every comma and nothing else. -/
theorem clean_amount_sep {u code : Str}
    (hu : ∀ c ∈ u, (isDigitC c || c == '.' || c == ',') = true)
    (hcode : code ∈ CURRENCY_CONFIG.map Prod.fst)
    (hdisj : containsSub u (S ".") = false ∨ containsSub u (S ",") = false)
    (hcnt : countC ',' u ≠ 1) :
    clean_amount_string u code = u.filter (fun c => !(c == ',')) := by
  have hsymany : ((get_currency_info code).symbol.any
      (fun c => !(isDigitC c || c == '.' || c == ','))) = true := by
    rcases get_currency_info_mem code with hm | hm
    · exact (by decide : ∀ i ∈ CURRENCY_CONFIG.map Prod.snd,
        (i.symbol.any (fun c => !(isDigitC c || c == '.' || c == ','))) = true) _ hm
    · rw [hm]
      decide
  obtain ⟨c0, hc0mem, hc0bad⟩ := List.any_eq_true.mp hsymany
  have hc0not : ¬ c0 ∈ u := by
    intro hmem
    rw [hu c0 hmem] at hc0bad
    exact absurd hc0bad (by decide)
  have e1 : replaceSub u (get_currency_info code).symbol [] = u :=
    replaceSub_id (containsSub_false_of_missing hc0mem hc0not)
  have hkeyany : (code.any (fun c => !(isDigitC c || c == '.' || c == ','))) = true :=
    (by decide : ∀ k ∈ CURRENCY_CONFIG.map Prod.fst,
      (k.any (fun c => !(isDigitC c || c == '.' || c == ','))) = true) _ hcode
  obtain ⟨c1c, hc1mem, hc1bad⟩ := List.any_eq_true.mp hkeyany
  have hc1not : ¬ c1c ∈ u := by
    intro hmem
    rw [hu c1c hmem] at hc1bad
    exact absurd hc1bad (by decide)
  have e2 : replaceSub u code [] = u :=
    replaceSub_id (containsSub_false_of_missing hc1mem hc1not)
  have e3 : u.filter (fun c => isDigitC c || c == '.' || c == ',') = u :=
    List.filter_eq_self.mpr hu
  unfold clean_amount_string
  simp only []
  rw [e1, e2, e3]
  by_cases hcomma : containsSub u (S ",") = true
  · rcases hdisj with hdot | hdot
    · have hcond1 : (containsSub u (S ",") && containsSub u (S ".")) = false := by
        rw [hcomma, hdot]
        rfl
      rw [hcond1, if_neg (show ¬ (false = true) by simp), if_pos hcomma]
      have hmemc : ',' ∈ u := containsSub_subset hcomma ',' (by decide)
      have hge1 : 1 ≤ countC ',' u := by
        unfold countC
        have hmf : ',' ∈ u.filter (· == ',') := List.mem_filter.mpr ⟨hmemc, by simp⟩
        exact List.length_pos.mpr (List.ne_nil_of_mem hmf)
      have hlen : ((splitOnChar ',' u).length == 2) = false := by
        rw [splitOnChar_length]
        cases hb : (countC ',' u + 1 == 2)
        · rfl
        · exfalso
          have h2 := eq_of_beq hb
          exact hcnt (by omega)
      rw [hlen, Bool.false_and, if_neg (show ¬ (false = true) by simp)]
      rw [show (S "," : Str) = [','] from rfl]
      exact replaceSub_del
    · rw [hcomma] at hdot
      exact Bool.noConfusion hdot
  · have hcf : containsSub u (S ",") = false := by
      cases h2 : containsSub u (S ",")
      · rfl
      · exact absurd h2 hcomma
    have hcond1 : (containsSub u (S ",") && containsSub u (S ".")) = false := by
      rw [hcf]
      rfl
    rw [hcond1, if_neg (show ¬ (false = true) by simp), if_neg hcomma]
    rw [List.filter_eq_self.mpr (by
      intro c hcu
      cases hb : (c == ',')
      · rfl
      · exfalso
        have hc : ',' ∈ u := by
          rw [← eq_of_beq hb]
          exact hcu
        have := containsSub_single_of_mem hc
        rw [show ([','] : Str) = S "," from rfl, hcf] at this
        exact Bool.noConfusion this)]

/-- `normalize_amount_text` on a shaped numeral either deletes the
thousands commas, or (multi-group integer form) returns the string
unchanged for a later pass to clean. -/
theorem normalize_shape (region : Str) {a : Str} {gs : List Str} {d : Option Str}
    (ha : a ≠ []) (had : a.all isDigitC = true)
    (hgs : ∀ g ∈ gs, g.length = 3 ∧ g.all isDigitC = true)
    (hd : ∀ d0, d = some d0 → d0.length = 2 ∧ d0.all isDigitC = true) :
    normalize_amount_text (numShape a gs d) region =
        (numShape a gs d).filter (fun c => !(c == ',')) ∨
    (normalize_amount_text (numShape a gs d) region = numShape a gs d ∧
      d = none ∧ 2 ≤ gs.length) := by
  have hgsall : ∀ g ∈ gs, g.all isDigitC = true := fun g hg => (hgs g hg).2
  have hdall : ∀ d0, d = some d0 → d0.all isDigitC = true := fun d0 h0 => (hd d0 h0).2
  have hchars := numShape_chars had hgsall hdall
  have hnospace : ∀ c ∈ numShape a gs d, isSpaceC c = false :=
    fun c hc => isSpaceC_false_of_class (hchars c hc)
  have hstripS : pyStrip (numShape a gs d) = numShape a gs d := pyStrip_id hnospace
  have hneP : ¬ (numShape a gs d = []) := by
    unfold numShape
    intro hh
    rcases List.append_eq_nil.mp hh with ⟨hh2, _⟩
    rcases List.append_eq_nil.mp hh2 with ⟨hh3, _⟩
    exact ha hh3
  have hfilter_id : (∀ c ∈ numShape a gs d, (c == ',') = false) →
      numShape a gs d = (numShape a gs d).filter (fun c => !(c == ',')) := by
    intro hnc
    rw [List.filter_eq_self.mpr (by
      intro c hc
      rw [hnc c hc]
      rfl)]
  cases d with
  | none =>
    have hnd : ¬ '.' ∈ numShape a gs none := numShape_no_dot had hgsall
    have hdc : containsSub (numShape a gs none) (S ".") = false :=
      containsSub_false_of_missing (by decide : '.' ∈ S ".") hnd
    cases gs with
    | nil =>
      left
      have hncm : ¬ ',' ∈ numShape a [] none := numShape_no_comma had hdall
      have hcf : containsSub (numShape a [] none) (S ",") = false :=
        containsSub_false_of_missing (by decide : ',' ∈ S ",") hncm
      unfold normalize_amount_text
      rw [if_neg hneP]
      simp only []
      rw [hstripS]
      have hcond1 : (containsSub (numShape a [] none) (S ",") &&
          containsSub (numShape a [] none) (S ".")) = false := by
        rw [hcf]
        rfl
      by_cases hEU : europeanRegions.contains region = true
      · rw [if_pos hEU, hcond1, if_neg (show ¬ (false = true) by simp)]
        have hcond2 : (containsSub (numShape a [] none) (S ",") &&
            (countC ',' (numShape a [] none) == 1)) = false := by
          rw [hcf]
          rfl
        rw [hcond2, if_neg (show ¬ (false = true) by simp)]
        exact hfilter_id (fun c hc => by
          cases hb : (c == ',')
          · rfl
          · exact absurd (by rw [← eq_of_beq hb]; exact hc) hncm)
      · rw [if_neg hEU, hcond1, if_neg (show ¬ (false = true) by simp)]
        rw [if_neg (show ¬ (containsSub (numShape a [] none) (S ",") = true) by
          rw [hcf]; simp)]
        exact hfilter_id (fun c hc => by
          cases hb : (c == ',')
          · rfl
          · exact absurd (by rw [← eq_of_beq hb]; exact hc) hncm)
    | cons g rest =>
      have hcm : ',' ∈ numShape a (g :: rest) none :=
        numShape_comma_mem a none (List.mem_cons_self g rest)
      have hcc : containsSub (numShape a (g :: rest) none) (S ",") = true := by
        rw [show (S "," : Str) = [','] from rfl]
        exact containsSub_single_of_mem hcm
      have hcond1 : (containsSub (numShape a (g :: rest) none) (S ",") &&
          containsSub (numShape a (g :: rest) none) (S ".")) = false := by
        rw [hdc, Bool.and_false]
      have hcount : countC ',' (numShape a (g :: rest) none) = (g :: rest).length :=
        numShape_comma_count had hgsall hdall
      cases rest with
      | nil =>
        left
        have hglen : g.length = 3 := (hgs g (List.mem_cons_self g [])).1
        have hgall : g.all isDigitC = true := (hgs g (List.mem_cons_self g [])).2
        have hs3 : numShape a [g] none = a ++ ',' :: g := by
          unfold numShape
          simp
        have hacm : ∀ c ∈ a, (c == ',') = false :=
          fun c hc => digit_beq_comma_false (List.all_eq_true.mp had c hc)
        have hgcm : ∀ c ∈ g, (c == ',') = false :=
          fun c hc => digit_beq_comma_false (List.all_eq_true.mp hgall c hc)
        have hsplit : splitOnChar ',' (numShape a [g] none) = [a, g] := by
          rw [hs3, splitOnChar_append_sep hacm, splitOnChar_no_sep hgcm]
        unfold normalize_amount_text
        rw [if_neg hneP]
        simp only []
        rw [hstripS]
        have hc1 : countC ',' (numShape a [g] none) = 1 := by
          rw [hcount]
          rfl
        by_cases hEU : europeanRegions.contains region = true
        · rw [if_pos hEU, hcond1, if_neg (show ¬ (false = true) by simp)]
          have hcond2 : (containsSub (numShape a [g] none) (S ",") &&
              (countC ',' (numShape a [g] none) == 1)) = true := by
            rw [hcc, hc1]
            rfl
          rw [hcond2, if_pos rfl]
          rw [hsplit]
          rw [show (([a, g] : List Str).getD 1 []) = g from rfl]
          rw [show (([a, g] : List Str).length == 2) = true from rfl]
          rw [hglen]
          rw [show ((true && ((3 : Nat) ≤ 2 : Bool)) && allDigits g) = false from rfl]
          rw [if_neg (show ¬ (false = true) by simp)]
          rw [show (S "," : Str) = [','] from rfl]
          exact replaceSub_del
        · rw [if_neg hEU, hcond1, if_neg (show ¬ (false = true) by simp)]
          rw [if_pos hcc]
          rw [hsplit]
          rw [show (([a, g] : List Str).getD 1 []) = g from rfl]
          rw [show (([a, g] : List Str).length == 2) = true from rfl]
          have hag : allDigits g = true := by
            unfold allDigits
            rw [hgall, Bool.and_true]
            refine decide_eq_true ?_
            intro hh
            rw [hh] at hglen
            exact absurd hglen (by decide)
          rw [hglen, hag]
          rw [show ((true && ((3 : Nat) == 3)) && true) = true from rfl]
          rw [if_pos rfl]
          rw [show (S "," : Str) = [','] from rfl]
          exact replaceSub_del
      | cons g2 rest2 =>
        right
        refine ⟨?_, rfl, by simp⟩
        unfold normalize_amount_text
        rw [if_neg hneP]
        simp only []
        rw [hstripS]
        by_cases hEU : europeanRegions.contains region = true
        · rw [if_pos hEU, hcond1, if_neg (show ¬ (false = true) by simp)]
          have hc2 : (countC ',' (numShape a (g :: g2 :: rest2) none) == 1) = false := by
            rw [hcount]
            rfl
          have hcond2 : (containsSub (numShape a (g :: g2 :: rest2) none) (S ",") &&
              (countC ',' (numShape a (g :: g2 :: rest2) none) == 1)) = false := by
            rw [hc2, Bool.and_false]
          rw [hcond2, if_neg (show ¬ (false = true) by simp)]
        · rw [if_neg hEU, hcond1, if_neg (show ¬ (false = true) by simp)]
          rw [if_pos hcc]
          have hlen2 : ((splitOnChar ',' (numShape a (g :: g2 :: rest2) none)).length == 2)
              = false := by
            rw [splitOnChar_length, hcount]
            rfl
          rw [hlen2, Bool.false_and, Bool.false_and,
            if_neg (show ¬ (false = true) by simp)]
  | some d0 =>
    left
    have hd0 : d0.length = 2 ∧ d0.all isDigitC = true := hd d0 rfl
    have hd0c : ∀ c ∈ d0, (c == ',') = false :=
      fun c hc => digit_beq_comma_false (List.all_eq_true.mp hd0.2 c hc)
    have hd0d : ∀ c ∈ d0, (c == '.') = false :=
      fun c hc => digit_beq_dot_false (List.all_eq_true.mp hd0.2 c hc)
    have hdm : '.' ∈ numShape a gs (some d0) := numShape_dot_mem a gs d0
    have hdc : containsSub (numShape a gs (some d0)) (S ".") = true := by
      rw [show (S "." : Str) = ['.'] from rfl]
      exact containsSub_single_of_mem hdm
    cases gs with
    | nil =>
      have hncm : ¬ ',' ∈ numShape a [] (some d0) := numShape_no_comma had hdall
      have hcf : containsSub (numShape a [] (some d0)) (S ",") = false :=
        containsSub_false_of_missing (by decide : ',' ∈ S ",") hncm
      unfold normalize_amount_text
      rw [if_neg hneP]
      simp only []
      rw [hstripS]
      have hcond1 : (containsSub (numShape a [] (some d0)) (S ",") &&
          containsSub (numShape a [] (some d0)) (S ".")) = false := by
        rw [hcf]
        rfl
      by_cases hEU : europeanRegions.contains region = true
      · rw [if_pos hEU, hcond1, if_neg (show ¬ (false = true) by simp)]
        have hcond2 : (containsSub (numShape a [] (some d0)) (S ",") &&
            (countC ',' (numShape a [] (some d0)) == 1)) = false := by
          rw [hcf]
          rfl
        rw [hcond2, if_neg (show ¬ (false = true) by simp)]
        exact hfilter_id (fun c hc => by
          cases hb : (c == ',')
          · rfl
          · exact absurd (by rw [← eq_of_beq hb]; exact hc) hncm)
      · rw [if_neg hEU, hcond1, if_neg (show ¬ (false = true) by simp)]
        rw [if_neg (show ¬ (containsSub (numShape a [] (some d0)) (S ",") = true) by
          rw [hcf]; simp)]
        exact hfilter_id (fun c hc => by
          cases hb : (c == ',')
          · rfl
          · exact absurd (by rw [← eq_of_beq hb]; exact hc) hncm)
    | cons g rest =>
      have hcm : ',' ∈ numShape a (g :: rest) (some d0) :=
        numShape_comma_mem a (some d0) (List.mem_cons_self g rest)
      have hcc : containsSub (numShape a (g :: rest) (some d0)) (S ",") = true := by
        rw [show (S "," : Str) = [','] from rfl]
        exact containsSub_single_of_mem hcm
      have hcond1 : (containsSub (numShape a (g :: rest) (some d0)) (S ",") &&
          containsSub (numShape a (g :: rest) (some d0)) (S ".")) = true := by
        rw [hcc, hdc]
        rfl
      have hs2 : numShape a (g :: rest) (some d0) =
          (a ++ (g :: rest).flatMap (fun g => ',' :: g)) ++ ('.' :: d0) := rfl
      have hfind_dot : rfindC '.' (numShape a (g :: rest) (some d0)) =
          (((a ++ (g :: rest).flatMap (fun g => ',' :: g)).length : Nat) : Int) := by
        rw [hs2]
        unfold rfindC
        rw [rfindAux_append]
        have hin : rfindAux '.' ('.' :: d0)
            (0 + (a ++ (g :: rest).flatMap (fun g => ',' :: g)).length) =
            (((0 + (a ++ (g :: rest).flatMap (fun g => ',' :: g)).length : Nat)) : Int) := by
          have hstep : rfindAux '.' ('.' :: d0)
              (0 + (a ++ (g :: rest).flatMap (fun g => ',' :: g)).length) =
              (if rfindAux '.' d0
                  (0 + (a ++ (g :: rest).flatMap (fun g => ',' :: g)).length + 1) ≥ 0
               then rfindAux '.' d0
                  (0 + (a ++ (g :: rest).flatMap (fun g => ',' :: g)).length + 1)
               else if ('.' : Char) == '.'
                 then (((0 + (a ++ (g :: rest).flatMap (fun g => ',' :: g)).length : Nat)) : Int)
                 else -1) := rfl
          rw [hstep, rfindAux_not_mem hd0d]
          rw [if_neg (by norm_num), if_pos (by decide)]
        rw [hin, if_pos (by exact_mod_cast Nat.zero_le _)]
        norm_num
      have hfind_comma : rfindC ',' (numShape a (g :: rest) (some d0)) <
          (((a ++ (g :: rest).flatMap (fun g => ',' :: g)).length : Nat) : Int) := by
        rw [hs2]
        unfold rfindC
        rw [rfindAux_append]
        have hin : rfindAux ',' ('.' :: d0)
            (0 + (a ++ (g :: rest).flatMap (fun g => ',' :: g)).length) = -1 := by
          have hstep : rfindAux ',' ('.' :: d0)
              (0 + (a ++ (g :: rest).flatMap (fun g => ',' :: g)).length) =
              (if rfindAux ',' d0
                  (0 + (a ++ (g :: rest).flatMap (fun g => ',' :: g)).length + 1) ≥ 0
               then rfindAux ',' d0
                  (0 + (a ++ (g :: rest).flatMap (fun g => ',' :: g)).length + 1)
               else if ('.' : Char) == ','
                 then (((0 + (a ++ (g :: rest).flatMap (fun g => ',' :: g)).length : Nat)) : Int)
                 else -1) := rfl
          rw [hstep, rfindAux_not_mem hd0c]
          rw [if_neg (by norm_num), if_neg (by decide)]
        rw [hin, if_neg (by norm_num)]
        rcases rfindAux_range ',' (a ++ (g :: rest).flatMap (fun g => ',' :: g)) 0 with h | h
        · rw [h]
          omega
        · have h2 := h.2
          omega
      have hnotgt : ¬ (rfindC ',' (numShape a (g :: rest) (some d0)) >
          rfindC '.' (numShape a (g :: rest) (some d0))) := by
        rw [hfind_dot]
        exact not_lt.mpr (le_of_lt hfind_comma)
      unfold normalize_amount_text
      rw [if_neg hneP]
      simp only []
      rw [hstripS]
      by_cases hEU : europeanRegions.contains region = true
      · rw [if_pos hEU, hcond1, if_pos rfl, if_neg hnotgt]
        rw [show (S "," : Str) = [','] from rfl]
        exact replaceSub_del
      · rw [if_neg hEU, hcond1, if_pos rfl]
        rw [show (S "," : Str) = [','] from rfl]
        exact replaceSub_del

/-- C3: locale normalization of matched numeral substrings. Every string
the currency patterns' number group
`(\d{1,3}(?:,\d{3})*(?:\.\d{2})?|\d+(?:\.\d{2})?)` can match has the
`numShape` form: digit head, comma groups of exactly three digits,
optional dot followed by exactly two digits. On every such string the
extraction pipeline's normalization (`normalize_amount_text` with the
detected region, then `_clean_amount_string` with the configured
currency, exactly as applied to each match in
`_extract_with_currency_patterns`) deletes every comma and keeps the dot
as the decimal separator, for every region. This is the claimed law
instantiated on the reachable inputs: when both separators occur the dot
is the one appearing last (only digits follow it in the shape) and it is
kept as the decimal separator while the commas are stripped as thousands
grouping; when a single comma and no dot occur, exactly three digits
follow the comma (never at most two), and the comma is removed as a
thousands separator. -/
theorem matched_numeral_normalization (region code : Str) (a : Str) (gs : List Str)
    (d : Option Str)
    (hcode : code ∈ CURRENCY_CONFIG.map Prod.fst)
    (ha : a ≠ []) (had : a.all isDigitC = true)
    (hgs : ∀ g ∈ gs, g.length = 3 ∧ g.all isDigitC = true)
    (hd : ∀ d0, d = some d0 → d0.length = 2 ∧ d0.all isDigitC = true) :
    clean_amount_string (normalize_amount_text (numShape a gs d) region) code =
      (numShape a gs d).filter (fun c => !(c == ',')) := by
  have hgsall : ∀ g ∈ gs, g.all isDigitC = true := fun g hg => (hgs g hg).2
  have hdall : ∀ d0, d = some d0 → d0.all isDigitC = true := fun d0 h0 => (hd d0 h0).2
  have hchars := numShape_chars had hgsall hdall
  rcases normalize_shape region ha had hgs hd with hN | ⟨hN, hdn, hglen2⟩
  · rw [hN]
    have hufchars : ∀ c ∈ (numShape a gs d).filter (fun c => !(c == ',')),
        (isDigitC c || c == '.' || c == ',') = true :=
      fun c hc => hchars c (List.mem_filter.mp hc).1
    have hnocomma : ∀ c ∈ (numShape a gs d).filter (fun c => !(c == ',')),
        (c == ',') = false := by
      intro c hc
      have h2 := (List.mem_filter.mp hc).2
      cases hb : (c == ',')
      · rfl
      · rw [hb] at h2
        exact absurd h2 (by decide)
    have hcf : containsSub ((numShape a gs d).filter (fun c => !(c == ','))) (S ",")
        = false := by
      refine containsSub_false_of_missing (by decide : ',' ∈ S ",") ?_
      intro hmem
      exact absurd (hnocomma ',' hmem) (by decide)
    have hcnt0 : countC ',' ((numShape a gs d).filter (fun c => !(c == ','))) = 0 :=
      countC_zero hnocomma
    rw [clean_amount_sep hufchars hcode (Or.inr hcf) (by rw [hcnt0]; simp)]
    rw [List.filter_eq_self.mpr (by
      intro c hc
      rw [hnocomma c hc]
      rfl)]
  · subst hdn
    rw [hN]
    have hnd : ¬ '.' ∈ numShape a gs none := numShape_no_dot had hgsall
    have hdc : containsSub (numShape a gs none) (S ".") = false :=
      containsSub_false_of_missing (by decide : '.' ∈ S ".") hnd
    have hcnt : countC ',' (numShape a gs none) = gs.length :=
      numShape_comma_count had hgsall hdall
    exact clean_amount_sep hchars hcode (Or.inl hdc) (by rw [hcnt]; omega)

/-- C3 witness: the matched numeral "1,234.56" (head "1", one group
"234", decimals "56") normalizes to "1234.56" through the pipeline pair,
for a non-European region and the USD configuration. -/
theorem matched_numeral_normalization_witness :
    clean_amount_string (normalize_amount_text (S "1,234.56") (S "US")) (S "USD") =
      S "1234.56" := by
  have h := matched_numeral_normalization (S "US") (S "USD") (S "1") [S "234"]
    (some (S "56")) (by decide) (by decide) (by decide) (by decide)
    (by
      intro d0 h0
      rw [← Option.some.inj h0]
      decide)
  exact h

/-- C4 counterexample: a document containing "€1.234,56" does NOT
yield 1234.56. The detector defaults to region "US" (no region
indicators), so the European string is normalized US-style; moreover the
decimal number group can only match "1.23" inside "1.234,56", and the
top-ranked candidate of the full pipeline has value 1.23. No candidate
at all carries the value 1234.56. -/
theorem amount_roundtrip_counterexample :
    ((extract_amount_candidates (S "TOTAL: €1.234,56")).map (fun c => c.value)).head? =
      some ⟨123, 100⟩ ∧
    (extract_amount_candidates (S "TOTAL: €1.234,56")).all
      (fun c => !(PyNum.qeqv c.value ⟨123456, 100⟩)) = true ∧
    (detect_document_currency_and_region (S "TOTAL: €1.234,56")).region = S "US" := by
  decide

/-- C4 (amended): the round trip holds for US-formatted amounts — the
top candidate extracted from "TOTAL: $1,234.56" has the exact value
1234.56 — and the normalization pair itself recovers 1234.56 from the
European string "1.234,56" only when the detected region is European
(here "DE"); with the default region "US" the pipeline mis-normalizes
such strings, which is what the counterexample exhibits end to end. -/
theorem amount_roundtrip_amended :
    ((extract_amount_candidates (S "TOTAL: $1,234.56")).map (fun c => c.value)).head? =
      some ⟨123456, 100⟩ ∧
    pyFloat (clean_amount_string (normalize_amount_text (S "1.234,56") (S "DE")) (S "EUR")) =
      some ⟨123456, 100⟩ ∧
    pyFloat (clean_amount_string (normalize_amount_text (S "1.234,56") (S "US")) (S "EUR")) =
      some ⟨123456, 100000⟩ := by
  decide

/-- C9 counterexample: vendor extraction depends on the enumeration
order of `list(set(...))` in `get_business_indicators_by_region`, which
CPython derives from string hashes randomized per process
(`PYTHONHASHSEED`). On the document "A&B PLC &&& LTD" (detected region
GB) two valid enumerations of the same indicator set — insertion order
and its reverse — drive the extractor to different top vendor names, so
two runs of the same binary on identical input can disagree. -/
theorem vendor_set_order_counterexample :
    (detect_document_currency_and_region (S "A&B PLC &&& LTD")).region = S "GB" ∧
    IsSetEnumOf [S "LTD", S "LIMITED", S "PLC", S "COMPANY", S "CORP", S "INC"]
      ((lookupStr BUSINESS_INDICATORS (S "GB")).getD [] ++ commonBizIndicators) ∧
    IsSetEnumOf [S "INC", S "CORP", S "COMPANY", S "PLC", S "LIMITED", S "LTD"]
      ((lookupStr BUSINESS_INDICATORS (S "GB")).getD [] ++ commonBizIndicators) ∧
    (extract_vendor (fun _ => [S "LTD", S "LIMITED", S "PLC", S "COMPANY", S "CORP", S "INC"])
        (S "A&B PLC &&& LTD")).map (fun v => v.name) = some (S "A&B Plc &&& Ltd") ∧
    (extract_vendor (fun _ => [S "INC", S "CORP", S "COMPANY", S "PLC", S "LIMITED", S "LTD"])
        (S "A&B PLC &&& LTD")).map (fun v => v.name) = some (S "A&B PLC") ∧
    (S "A&B Plc &&& Ltd" : Str) ≠ S "A&B PLC" := by
  decide

/-- C9 (amended): amount extraction and, once a set-enumeration order is
fixed, vendor extraction are pure functions of the input text: two runs
on identical text under the same enumeration order produce identical
results. The only nondeterminism is the hash-dependent set order
exhibited by the counterexample; amount extraction does not consult it
at all. -/
theorem extraction_deterministic (setEnum : List Str → List Str) (t1 t2 : Str)
    (h : t1 = t2) :
    extract_amounts t1 = extract_amounts t2 ∧
    extract_vendor setEnum t1 = extract_vendor setEnum t2 := by
  subst h
  exact ⟨rfl, rfl⟩

/-- C9 witness: the determinism theorem applied at a concrete text and a
concrete enumeration order. -/
theorem extraction_deterministic_witness :
    extract_amounts (S "TOTAL: $5.00") = extract_amounts (S "TOTAL: $5.00") ∧
    extract_vendor (fun l => l) (S "TOTAL: $5.00") =
      extract_vendor (fun l => l) (S "TOTAL: $5.00") :=
  extraction_deterministic (fun l => l) (S "TOTAL: $5.00") (S "TOTAL: $5.00") rfl

end Vritti
